import Mathlib

/-!
# irishub-sync: transaction decoding and the unknown-status reconciliation scan

A shallow embedding of

* `util/helper/tx.go`   (`ParseTx`, `parseTags`, `getProposalIdFromTags`, `BuildHex`,
  `QueryTxResult`),
* `cron/cron_task.go`   (`StartCronService.fn_update`, `UpdateUnknownTxsByPage`, `doWork`,
  `ParseUnknownTxs`, `UpdateUnknowTxs`),
* `msg/nft/nft_edit.go`, `msg/nft/nft_transfer.go` (`BuildMsg`, `HandleTxMsg`),
* `msg/evidence/evidence.go` (`HandleTxMsg`),

followed by the properties established about them.

Conventions of the embedding.

* `float64` amounts are exact rationals (`ℚ`); a division by a zero gas value, which in Go
  yields an infinity or a NaN, is outside the statements made here: a general statement on the
  gas price or the actual fee carries the hypothesis of a positive gas limit.
* The case tables of the Go standard library (`unicode.ToLower`, `unicode.IsUpper`) are the
  parameter `unicode.Tables`; bytes are natural numbers, and a statement that needs them to be
  bytes says so.
* Go slices are lists; a `nil` slice and an empty slice are both `[]`.
* A Go panic is the value `none` of an `Option` result.
* Addresses, coins and decimal amounts of the decoded messages are carried in the string form
  their `String()` method returns, which is the only way the code reads them.
* A Go field or method called `Type` is written `Type_`.
* Calls that leave the process (chain node, codec, address codec) are fields of `helper.Env`;
  the document store is the explicit state `store.Collection`.
-/

/-! ## Data model -/

namespace store

/-- The Go struct `store.Coin`: a denomination and an amount. -/
structure Coin where
  Denom : String
  Amount : ℚ
  deriving DecidableEq, Inhabited

/-- The Go struct `store.Fee`: the fee amounts and the gas limit of the envelope. -/
structure Fee where
  Amount : List Coin
  Gas : Int
  deriving DecidableEq, Inhabited

/-- The Go struct `store.ActualFee`. -/
structure ActualFee where
  Denom : String
  Amount : ℚ
  deriving DecidableEq, Inhabited

end store

namespace itypes

/-- One key/value attribute of an execution result (`TmKVPair`), keys and values read as
strings. -/
structure TmKVPair where
  Key : String
  Value : String
  deriving DecidableEq, Inhabited

/-- The execution result of a transaction (`ResponseDeliverTx`), with the fields the code
reads. -/
structure ResponseDeliverTx where
  Code : Nat
  Log : String
  GasWanted : Int
  GasUsed : Int
  Tags : List TmKVPair
  deriving DecidableEq, Inhabited

/-- One input of a transfer message. -/
structure Input where
  Address : String
  Coins : String
  deriving DecidableEq, Inhabited

/-- One output of a transfer message. -/
structure Output where
  Address : String
  Coins : String
  deriving DecidableEq, Inhabited

structure MsgTransfer where
  Inputs : List Input
  Outputs : List Output
  deriving DecidableEq, Inhabited

structure MsgBurn where
  Owner : String
  Coins : String
  deriving DecidableEq, Inhabited

structure MsgStakeCreate where
  Moniker : String
  Identity : String
  Website : String
  Details : String
  DelegatorAddr : String
  ValidatorAddr : String
  PubKey : String
  Delegation : String
  deriving DecidableEq, Inhabited

structure MsgStakeEdit where
  Moniker : String
  Identity : String
  Website : String
  Details : String
  ValidatorAddr : String
  CommissionRate : Option String
  deriving DecidableEq, Inhabited

structure MsgStakeDelegate where
  DelegatorAddr : String
  ValidatorAddr : String
  Delegation : String
  deriving DecidableEq, Inhabited

structure MsgStakeBeginUnbonding where
  DelegatorAddr : String
  ValidatorAddr : String
  SharesAmount : String
  deriving DecidableEq, Inhabited

structure MsgBeginRedelegate where
  DelegatorAddr : String
  ValidatorSrcAddr : String
  ValidatorDstAddr : String
  SharesAmount : String
  deriving DecidableEq, Inhabited

structure MsgUnjail where
  ValidatorAddr : String
  deriving DecidableEq, Inhabited

structure MsgSetWithdrawAddress where
  DelegatorAddr : String
  WithdrawAddr : String
  deriving DecidableEq, Inhabited

structure MsgWithdrawDelegatorReward where
  DelegatorAddr : String
  ValidatorAddr : String
  deriving DecidableEq, Inhabited

structure MsgWithdrawDelegatorRewardsAll where
  DelegatorAddr : String
  deriving DecidableEq, Inhabited

structure MsgWithdrawValidatorRewardsAll where
  ValidatorAddr : String
  deriving DecidableEq, Inhabited

/-- The fields shared by the three proposal-submission messages. -/
structure MsgSubmitProposal where
  Title : String
  Description : String
  Proposer : String
  InitialDeposit : String
  deriving DecidableEq, Inhabited

structure MsgDeposit where
  ProposalID : Nat
  Depositor : String
  Amount : String
  deriving DecidableEq, Inhabited

structure MsgVote where
  ProposalID : Nat
  Voter : String
  Choice : String
  deriving DecidableEq, Inhabited

/-- The asset and gateway messages: `ParseTx` reads the addresses; `Body` stands for the
remaining fields, which only the payload builder reads. -/
structure AssetIssueToken where
  Owner : String
  Body : String
  deriving DecidableEq, Inhabited

structure AssetEditToken where
  Owner : String
  Body : String
  deriving DecidableEq, Inhabited

structure AssetMintToken where
  Owner : String
  To : String
  Body : String
  deriving DecidableEq, Inhabited

structure AssetTransferTokenOwner where
  SrcOwner : String
  DstOwner : String
  Body : String
  deriving DecidableEq, Inhabited

structure AssetCreateGateway where
  Owner : String
  Body : String
  deriving DecidableEq, Inhabited

structure AssetEditGateWay where
  Owner : String
  Body : String
  deriving DecidableEq, Inhabited

structure AssetTransferGatewayOwner where
  Owner : String
  To : String
  Body : String
  deriving DecidableEq, Inhabited

structure MsgEditNFT where
  Sender : String
  Id : String
  Denom : String
  URI : String
  Data : String
  deriving DecidableEq, Inhabited

structure MsgTransferNFT where
  Sender : String
  Recipient : String
  Denom : String
  Id : String
  URI : String
  Data : String
  deriving DecidableEq, Inhabited

end itypes

namespace sdk

/-- A decoded inner message, tagged by its runtime variant (`sdk.Msg`).  `other` is any variant
outside the ones named in the source files; it carries the string its `Type()` returns. -/
inductive Msg where
  | MsgTransfer (m : itypes.MsgTransfer)
  | MsgBurn (m : itypes.MsgBurn)
  | MsgStakeCreate (m : itypes.MsgStakeCreate)
  | MsgStakeEdit (m : itypes.MsgStakeEdit)
  | MsgStakeDelegate (m : itypes.MsgStakeDelegate)
  | MsgStakeBeginUnbonding (m : itypes.MsgStakeBeginUnbonding)
  | MsgBeginRedelegate (m : itypes.MsgBeginRedelegate)
  | MsgUnjail (m : itypes.MsgUnjail)
  | MsgSetWithdrawAddress (m : itypes.MsgSetWithdrawAddress)
  | MsgWithdrawDelegatorReward (m : itypes.MsgWithdrawDelegatorReward)
  | MsgWithdrawDelegatorRewardsAll (m : itypes.MsgWithdrawDelegatorRewardsAll)
  | MsgWithdrawValidatorRewardsAll (m : itypes.MsgWithdrawValidatorRewardsAll)
  | MsgSubmitProposal (m : itypes.MsgSubmitProposal)
  | MsgSubmitSoftwareUpgradeProposal (m : itypes.MsgSubmitProposal)
  | MsgSubmitTaxUsageProposal (m : itypes.MsgSubmitProposal)
  | MsgDeposit (m : itypes.MsgDeposit)
  | MsgVote (m : itypes.MsgVote)
  | AssetIssueToken (m : itypes.AssetIssueToken)
  | AssetEditToken (m : itypes.AssetEditToken)
  | AssetMintToken (m : itypes.AssetMintToken)
  | AssetTransferTokenOwner (m : itypes.AssetTransferTokenOwner)
  | AssetCreateGateway (m : itypes.AssetCreateGateway)
  | AssetEditGateWay (m : itypes.AssetEditGateWay)
  | AssetTransferGatewayOwner (m : itypes.AssetTransferGatewayOwner)
  | MsgEditNFT (m : itypes.MsgEditNFT)
  | MsgTransferNFT (m : itypes.MsgTransferNFT)
  | other (type : String)
  deriving DecidableEq, Inhabited

end sdk

namespace itypes

/-- The signature of an envelope: the hex form of the signer address (`Address().String()`). -/
structure StdSignature where
  AddrHex : String
  deriving DecidableEq, Inhabited

/-- The decoded envelope (`StdTx`).  `Fee` is the fee as `itypes.BuildFee` renders it. -/
structure StdTx where
  Msgs : List sdk.Msg
  Fee : store.Fee
  Signatures : List StdSignature
  Memo : String
  deriving DecidableEq, Inhabited

/-- Raw transaction bytes (`itypes.Tx`). -/
abbrev Tx := List Nat

/-- A block as the code reads it: height, time and raw transactions. -/
structure Block where
  Height : Int
  Time : Int
  Txs : List Tx
  deriving DecidableEq, Inhabited

/-- The answer of the node to a block query (`ResultBlock`). -/
structure ResultBlock where
  Block : Block
  deriving DecidableEq, Inhabited

end itypes

namespace nft

/-- The stored payload of an NFT edit (`DocMsgNFTEdit`). -/
structure DocMsgNFTEdit where
  Sender : String := ""
  Id : String := ""
  Denom : String := ""
  URI : String := ""
  Data : String := ""
  deriving DecidableEq

/-- The stored payload of an NFT transfer (`DocMsgNFTTransfer`). -/
structure DocMsgNFTTransfer where
  Sender : String := ""
  Recipient : String := ""
  URI : String := ""
  Denom : String := ""
  Id : String := ""
  Data : String := ""
  deriving DecidableEq

end nft

namespace document

/-- The payload object held by a `msgs` entry or by the `Msg` field.  `built m` is the payload
that a builder outside these source files (`itypes.New...`, `DocTxMsg....BuildMsg`) makes from
the message `m`; the NFT payloads are the ones of `msg/nft`. -/
inductive MsgData where
  | built (m : sdk.Msg)
  | NFTEdit (d : nft.DocMsgNFTEdit)
  | NFTTransfer (d : nft.DocMsgNFTTransfer)
  deriving DecidableEq

/-- One entry of `msgs` (`DocTxMsg`): a type tag and a payload. -/
structure DocTxMsg where
  Type_ : String
  Msg : MsgData
  deriving DecidableEq

structure Signer where
  AddrHex : String := ""
  AddrBech32 : String := ""
  deriving DecidableEq

structure ValDescription where
  Moniker : String := ""
  Identity : String := ""
  Website : String := ""
  Details : String := ""
  deriving DecidableEq

structure StakeCreateValidator where
  PubKey : String := ""
  Description : ValDescription := {}
  deriving DecidableEq

structure StakeEditValidator where
  CommissionRate : String := ""
  Description : ValDescription := {}
  deriving DecidableEq

/-- The record assembled by `ParseTx` (`document.CommonTx`), with the fields the source files
read or write.  `Tags` is a Go map, kept as a list of key/value pairs with distinct keys.  The
field defaults are the Go zero values, so `({} : CommonTx)` is the empty record. -/
structure CommonTx where
  Time : Int := 0
  Height : Int := 0
  TxHash : String := ""
  From : String := ""
  To : String := ""
  Amount : List store.Coin := []
  Type_ : String := ""
  Fee : store.Fee := ⟨[], 0⟩
  Memo : String := ""
  Status : String := ""
  Code : Nat := 0
  Log : String := ""
  GasUsed : Int := 0
  GasWanted : Int := 0
  GasPrice : ℚ := 0
  ActualFee : store.ActualFee := ⟨"", 0⟩
  ProposalId : Nat := 0
  Tags : List (String × String) := []
  StakeCreateValidator : StakeCreateValidator := {}
  StakeEditValidator : StakeEditValidator := {}
  Signers : List Signer := []
  Msg : Option MsgData := none
  Msgs : List DocTxMsg := []
  Types : List String := []
  Addrs : List String := []
  deriving DecidableEq

/-- Modelled from the spec: the constant `document.TxStatusSuccess`, declared outside these
source files; the spec names the three statuses `success`, `fail` and `unknown`. -/
def TxStatusSuccess : String := "success"

/-- Modelled from the spec: the constant `document.TxStatusFail`, declared outside these source
files; the spec names the three statuses `success`, `fail` and `unknown`. -/
def TxStatusFail : String := "fail"

end document

namespace constant

/-- The string constants of `util/constant` and `types` that the source files name but do not
declare; their values are parameters of the embedding. -/
structure Table where
  TxTypeTransfer : String
  TxTypeBurn : String
  TxTypeStakeCreateValidator : String
  TxTypeStakeEditValidator : String
  TxTypeStakeDelegate : String
  TxTypeStakeBeginUnbonding : String
  TxTypeBeginRedelegate : String
  TxTypeUnjail : String
  TxTypeSetWithdrawAddress : String
  TxTypeWithdrawDelegatorReward : String
  TxTypeWithdrawDelegatorRewardsAll : String
  TxTypeWithdrawValidatorRewardsAll : String
  TxTypeSubmitProposal : String
  TxTypeDeposit : String
  TxTypeVote : String
  TxTypeAssetIssueToken : String
  TxTypeAssetEditToken : String
  TxTypeAssetMintToken : String
  TxTypeAssetTransferTokenOwner : String
  TxTypeAssetCreateGateway : String
  TxTypeAssetEditGateway : String
  TxTypeAssetTransferGatewayOwner : String
  TxTypeNFTEdit : String
  TxTypeNFTTransfer : String
  /-- What `DocTxMsgIssueToken.Type()` returns, and likewise for the next six. -/
  DocTxMsgIssueTokenType : String
  DocTxMsgEditTokenType : String
  DocTxMsgMintTokenType : String
  DocTxMsgTransferTokenOwnerType : String
  DocTxMsgCreateGatewayType : String
  DocTxMsgEditGatewayType : String
  DocTxMsgTransferGatewayOwnerType : String
  TagDistributionReward : String
  TagGovProposalID : String

end constant

namespace helper

/-- The answer of the node to a transaction query (`ResultTx`). -/
structure ResultTx where
  TxResult : itypes.ResponseDeliverTx

/-- A chain-node client (`helper.Client`): what its `Block` and `Tx` calls answer. -/
structure Client where
  Block : Int → Except String itypes.ResultBlock
  Tx : List Nat → Except String ResultTx

/-- Everything `ParseTx` and the cron task call outside these source files.

* `Unmarshal` is `cdc.UnmarshalBinaryLengthPrefixed` followed by `itypes.BuildFee` on the fee;
* `Hash` is `txBytes.Hash()`;
* `work`, `retry` and `query` are the clients `helper.GetClient()` hands out at its three call
  sites: in `doWork`, in the retry of `ParseUnknownTxs`, and in `QueryTxResult`. -/
structure Env where
  Unmarshal : itypes.Tx → Except String itypes.StdTx
  Hash : itypes.Tx → List Nat
  ConvertAccountAddrFromHexToBech32 : String → Except String String
  Bech32ifyValPub : String → Except String String
  ParseCoins : String → List store.Coin
  ParseCoin : String → store.Coin
  ParseFloat : String → ℚ
  work : Client
  retry : Client
  query : Client

end helper

/-! ## `util/helper/tx.go` -/

namespace strconv

/-- The decimal digits of `strconv.ParseInt(s, 10, 0)` after the sign: the value they denote,
or `none` when a character is not a digit. -/
def parseDigits (cs : List Char) : Option Nat :=
  cs.foldl (fun acc c =>
    match acc with
    | none => none
    | some n => if c.isDigit then some (10 * n + (c.toNat - 48)) else none) (some 0)

/-- The Go standard library call `strconv.ParseInt(s, 10, 0)` on a 64-bit platform: an optional
sign followed by at least one decimal digit, in the range of `int64`; anything else is an
error. -/
def ParseInt (s : String) : Except String Int :=
  let (neg, digits) :=
    match s.toList with
    | '+' :: cs => (false, cs)
    | '-' :: cs => (true, cs)
    | cs => (false, cs)
  if digits.isEmpty then .error "invalid syntax"
  else
    match parseDigits digits with
    | none => .error "invalid syntax"
    | some n =>
      if neg then
        if n ≤ 2 ^ 63 then .ok (-(n : Int)) else .error "value out of range"
      else
        if n < 2 ^ 63 then .ok (n : Int) else .error "value out of range"

end strconv

namespace unicode

/-- The case tables of the Go standard library, which are outside the source files:
`ToLower` is the function `unicode.ToLower`, the lowercase form of a character, and `IsUpper`
the function `unicode.IsUpper`, whether a character is an uppercase letter. -/
structure Tables where
  ToLower : Char → Char
  IsUpper : Char → Bool

end unicode

namespace strings

/-- The Go standard library function `strings.ToUpper`, on ASCII letters. -/
def ToUpper (s : String) : String := String.mk (s.toList.map Char.toUpper)

/-- The Go standard library function `strings.ToLower`: every character of the string is
replaced by its lowercase form `unicode.ToLower`. -/
def ToLower (U : unicode.Tables) (s : String) : String := String.mk (s.toList.map U.ToLower)

end strings

namespace hex

/-- One lowercase hexadecimal digit. -/
def digit (n : Nat) : Char :=
  if n < 10 then Char.ofNat (48 + n) else Char.ofNat (87 + n)

/-- The Go standard library function `hex.EncodeToString`: two lowercase hexadecimal digits
per byte. -/
def EncodeToString (bytes : List Nat) : String :=
  String.mk (bytes.flatMap fun b => [digit (b % 256 / 16), digit (b % 16)])

end hex

namespace helper

/-- Modelled from the spec: the function `helper.Min`, declared outside these source files; the
spec says `gas_used` is capped at the gas limit. -/
def Min (a b : Int) : Int := if a < b then a else b

/-- The assignment `tags[key] = value` on a Go map kept as a list of pairs: the value of an
existing key is replaced, a new key is added. -/
def mapSet (m : List (String × String)) (key value : String) : List (String × String) :=
  match m with
  | [] => [(key, value)]
  | (k, v) :: rest => if k = key then (k, value) :: rest else (k, v) :: mapSet rest key value

/-- The lookup `tags[key]` on a Go map kept as a list of pairs. -/
def mapGet (m : List (String × String)) (key : String) : Option String :=
  (m.find? fun kv => kv.1 = key).map Prod.snd

/-- The Go function `parseTags`. -/
def parseTags (result : itypes.ResponseDeliverTx) : List (String × String) :=
  result.Tags.foldl (fun tags tag => mapSet tags tag.Key tag.Value) []

/-- The Go function `getProposalIdFromTags`: the proposal id and the error.  The conversion
`uint64(proposalId)` is the residue modulo `2 ^ 64`. -/
def getProposalIdFromTags (K : constant.Table) :
    List itypes.TmKVPair → Nat × Option String
  | [] => (0, none)
  | tag :: tags =>
    if tag.Key = K.TagGovProposalID then
      match strconv.ParseInt tag.Value with
      | .error err => (0, some err)
      | .ok proposalId => ((proposalId % 2 ^ 64).toNat, none)
    else getProposalIdFromTags K tags

/-- The Go function `BuildHex`. -/
def BuildHex (bytes : List Nat) : String :=
  strings.ToUpper (hex.EncodeToString bytes)

/-- The Go function `QueryTxResult`: status, result and error. -/
def QueryTxResult (env : Env) (txHash : List Nat) :
    String × itypes.ResponseDeliverTx × Option String :=
  let resDeliverTx : itypes.ResponseDeliverTx := ⟨0, "", 0, 0, []⟩
  let status := document.TxStatusSuccess
  match env.query.Tx txHash with
  | .error err => ("unknown", resDeliverTx, some err)
  | .ok res =>
    let result := res.TxResult
    let status := if result.Code ≠ 0 then document.TxStatusFail else status
    (status, result, none)

/-- The loop of `ParseTx` over the signatures of the envelope. -/
def signersOf (env : Env) (sigs : List itypes.StdSignature) : List document.Signer :=
  sigs.map fun signature =>
    match env.ConvertAccountAddrFromHexToBech32 signature.AddrHex with
    | .error _ => { AddrHex := signature.AddrHex }
    | .ok addrBech32 => { AddrHex := signature.AddrHex, AddrBech32 := addrBech32 }

/-- The loop of the three reward-withdrawal cases of `ParseTx`: the amount becomes the parsed
value of the first tag whose key is the distribution-reward key, and stays as it is when there
is none. -/
def rewardAmount (K : constant.Table) (env : Env) (tags : List itypes.TmKVPair)
    (amount : List store.Coin) : List store.Coin :=
  match tags.find? fun tag => tag.Key = K.TagDistributionReward with
  | some tag => env.ParseCoins tag.Value
  | none => amount

/-- The type switch of `ParseTx` on the first message, applied to the record `docTx` filled
from the envelope and the result.  `none` is the panic of `msg.Inputs[0]` or `msg.Outputs[0]`
on an empty list. -/
def dispatch (K : constant.Table) (env : Env) (result : itypes.ResponseDeliverTx)
    (docTx : document.CommonTx) : sdk.Msg → Option document.CommonTx
  | .MsgTransfer msg =>
    match msg.Inputs, msg.Outputs with
    | i :: _, o :: _ =>
      some { docTx with
        From := i.Address, To := o.Address, Amount := env.ParseCoins i.Coins,
        Type_ := K.TxTypeTransfer }
    | _, _ => none
  | .MsgBurn msg =>
    some { docTx with
      From := msg.Owner, To := "", Amount := env.ParseCoins msg.Coins, Type_ := K.TxTypeBurn }
  | .MsgStakeCreate msg =>
    let valDes : document.ValDescription :=
      { Moniker := msg.Moniker, Identity := msg.Identity, Website := msg.Website,
        Details := msg.Details }
    let pubKey :=
      match env.Bech32ifyValPub msg.PubKey with
      | .error _ => ""
      | .ok pubKey => pubKey
    some { docTx with
      From := msg.DelegatorAddr, To := msg.ValidatorAddr,
      Amount := [env.ParseCoin msg.Delegation], Type_ := K.TxTypeStakeCreateValidator,
      StakeCreateValidator := { PubKey := pubKey, Description := valDes } }
  | .MsgStakeEdit msg =>
    let valDes : document.ValDescription :=
      { Moniker := msg.Moniker, Identity := msg.Identity, Website := msg.Website,
        Details := msg.Details }
    let commissionRate :=
      match msg.CommissionRate with
      | none => ""
      | some rate => rate
    some { docTx with
      From := msg.ValidatorAddr, To := "", Amount := [], Type_ := K.TxTypeStakeEditValidator,
      StakeEditValidator := { CommissionRate := commissionRate, Description := valDes } }
  | .MsgStakeDelegate msg =>
    some { docTx with
      From := msg.DelegatorAddr, To := msg.ValidatorAddr,
      Amount := [env.ParseCoin msg.Delegation], Type_ := K.TxTypeStakeDelegate }
  | .MsgStakeBeginUnbonding msg =>
    let shares := env.ParseFloat msg.SharesAmount
    some { docTx with
      From := msg.DelegatorAddr, To := msg.ValidatorAddr,
      Amount := [{ Denom := "", Amount := shares }], Type_ := K.TxTypeStakeBeginUnbonding }
  | .MsgBeginRedelegate msg =>
    let shares := env.ParseFloat msg.SharesAmount
    some { docTx with
      From := msg.DelegatorAddr, To := msg.ValidatorDstAddr,
      Amount := [{ Denom := "", Amount := shares }], Type_ := K.TxTypeBeginRedelegate,
      Msg := some (.built (.MsgBeginRedelegate msg)) }
  | .MsgUnjail msg =>
    some { docTx with From := msg.ValidatorAddr, Type_ := K.TxTypeUnjail }
  | .MsgSetWithdrawAddress msg =>
    some { docTx with
      From := msg.DelegatorAddr, To := msg.WithdrawAddr, Type_ := K.TxTypeSetWithdrawAddress,
      Msg := some (.built (.MsgSetWithdrawAddress msg)) }
  | .MsgWithdrawDelegatorReward msg =>
    some { docTx with
      From := msg.DelegatorAddr, To := msg.ValidatorAddr,
      Type_ := K.TxTypeWithdrawDelegatorReward,
      Msg := some (.built (.MsgWithdrawDelegatorReward msg)),
      Amount := rewardAmount K env result.Tags docTx.Amount }
  | .MsgWithdrawDelegatorRewardsAll msg =>
    some { docTx with
      From := msg.DelegatorAddr, Type_ := K.TxTypeWithdrawDelegatorRewardsAll,
      Msg := some (.built (.MsgWithdrawDelegatorRewardsAll msg)),
      Amount := rewardAmount K env result.Tags docTx.Amount }
  | .MsgWithdrawValidatorRewardsAll msg =>
    some { docTx with
      From := msg.ValidatorAddr, Type_ := K.TxTypeWithdrawValidatorRewardsAll,
      Msg := some (.built (.MsgWithdrawValidatorRewardsAll msg)),
      Amount := rewardAmount K env result.Tags docTx.Amount }
  | .MsgSubmitProposal msg =>
    some { docTx with
      From := msg.Proposer, To := "", Amount := env.ParseCoins msg.InitialDeposit,
      Type_ := K.TxTypeSubmitProposal, Msg := some (.built (.MsgSubmitProposal msg)),
      ProposalId := (getProposalIdFromTags K result.Tags).1 }
  | .MsgSubmitSoftwareUpgradeProposal msg =>
    some { docTx with
      From := msg.Proposer, To := "", Amount := env.ParseCoins msg.InitialDeposit,
      Type_ := K.TxTypeSubmitProposal,
      Msg := some (.built (.MsgSubmitSoftwareUpgradeProposal msg)),
      ProposalId := (getProposalIdFromTags K result.Tags).1 }
  | .MsgSubmitTaxUsageProposal msg =>
    some { docTx with
      From := msg.Proposer, To := "", Amount := env.ParseCoins msg.InitialDeposit,
      Type_ := K.TxTypeSubmitProposal, Msg := some (.built (.MsgSubmitTaxUsageProposal msg)),
      ProposalId := (getProposalIdFromTags K result.Tags).1 }
  | .MsgDeposit msg =>
    some { docTx with
      From := msg.Depositor, Amount := env.ParseCoins msg.Amount, Type_ := K.TxTypeDeposit,
      Msg := some (.built (.MsgDeposit msg)), ProposalId := msg.ProposalID }
  | .MsgVote msg =>
    some { docTx with
      From := msg.Voter, Amount := [], Type_ := K.TxTypeVote,
      Msg := some (.built (.MsgVote msg)), ProposalId := msg.ProposalID }
  | .AssetIssueToken msg =>
    some { docTx with
      From := msg.Owner, Type_ := K.TxTypeAssetIssueToken,
      Msgs := [] ++ [⟨K.DocTxMsgIssueTokenType, .built (.AssetIssueToken msg)⟩] }
  | .AssetEditToken msg =>
    some { docTx with
      From := msg.Owner, Type_ := K.TxTypeAssetEditToken,
      Msgs := [] ++ [⟨K.DocTxMsgEditTokenType, .built (.AssetEditToken msg)⟩] }
  | .AssetMintToken msg =>
    some { docTx with
      From := msg.Owner, To := msg.To, Type_ := K.TxTypeAssetMintToken,
      Msgs := [] ++ [⟨K.DocTxMsgMintTokenType, .built (.AssetMintToken msg)⟩] }
  | .AssetTransferTokenOwner msg =>
    some { docTx with
      From := msg.SrcOwner, To := msg.DstOwner, Type_ := K.TxTypeAssetTransferTokenOwner,
      Msgs := [] ++ [⟨K.DocTxMsgTransferTokenOwnerType, .built (.AssetTransferTokenOwner msg)⟩] }
  | .AssetCreateGateway msg =>
    some { docTx with
      From := msg.Owner, Type_ := K.TxTypeAssetCreateGateway,
      Msgs := [] ++ [⟨K.DocTxMsgCreateGatewayType, .built (.AssetCreateGateway msg)⟩] }
  | .AssetEditGateWay msg =>
    some { docTx with
      From := msg.Owner, Type_ := K.TxTypeAssetEditGateway,
      Msgs := [] ++ [⟨K.DocTxMsgEditGatewayType, .built (.AssetEditGateWay msg)⟩] }
  | .AssetTransferGatewayOwner msg =>
    some { docTx with
      From := msg.Owner, To := msg.To, Type_ := K.TxTypeAssetTransferGatewayOwner,
      Msgs :=
        [] ++ [⟨K.DocTxMsgTransferGatewayOwnerType, .built (.AssetTransferGatewayOwner msg)⟩] }
  | _ => some docTx

/-- The Go function `ParseTx`.  `none` is a panic; the empty record `{}` is what the two early
returns give.  The gas price and the actual fee are the exact quotient and product; they are
those of the code for a gas limit other than zero. -/
def ParseTx (K : constant.Table) (env : Env) (txBytes : itypes.Tx) (block : itypes.Block) :
    Option document.CommonTx :=
  match env.Unmarshal txBytes with
  | .error _ => some {}
  | .ok authTx =>
    let height := block.Height
    let time := block.Time
    let txHash := BuildHex (env.Hash txBytes)
    let fee := authTx.Fee
    let memo := authTx.Memo
    let signers := signersOf env authTx.Signatures
    let (status, result, _) := QueryTxResult env (env.Hash txBytes)
    let log := result.Log
    let gasUsed := Min result.GasUsed fee.Gas
    let (gasPrice, actualFee) : ℚ × store.ActualFee :=
      match fee.Amount with
      | c :: _ =>
        let gasPrice := c.Amount / (fee.Gas : ℚ)
        (gasPrice, { Denom := c.Denom, Amount := (gasUsed : ℚ) * gasPrice })
      | [] => (0, ⟨"", 0⟩)
    match authTx.Msgs with
    | [] => some {}
    | msg :: _ =>
      let docTx : document.CommonTx :=
        { Height := height, Time := time, TxHash := txHash, Fee := fee, Memo := memo,
          Status := status, Code := result.Code, Log := log, GasUsed := gasUsed,
          GasWanted := result.GasUsed, GasPrice := gasPrice, ActualFee := actualFee,
          Tags := parseTags result, Signers := signers }
      dispatch K env result docTx msg

end helper

/-! ## `msg/nft` -/

namespace nft

/-- The Go method `DocMsgNFTEdit.Type`. -/
def DocMsgNFTEdit.Type_ (K : constant.Table) (_m : DocMsgNFTEdit) : String := K.TxTypeNFTEdit

/-- The Go method `DocMsgNFTEdit.BuildMsg`.  `none` is the panic of the type assertion
`v.(*types.MsgEditNFT)` on another variant. -/
def DocMsgNFTEdit.BuildMsg (U : unicode.Tables) (m : DocMsgNFTEdit) :
    sdk.Msg → Option DocMsgNFTEdit
  | .MsgEditNFT msg =>
    some { m with
      Sender := msg.Sender, Id := strings.ToLower U msg.Id,
      Denom := strings.ToLower U msg.Denom,
      URI := msg.URI, Data := msg.Data }
  | _ => none

/-- The Go method `DocMsgNFTEdit.HandleTxMsg`. -/
def DocMsgNFTEdit.HandleTxMsg (K : constant.Table) (U : unicode.Tables) (m : DocMsgNFTEdit)
    (msgData : sdk.Msg) (tx : document.CommonTx) : Option document.CommonTx :=
  match m.BuildMsg U msgData with
  | none => none
  | some m =>
    let tx : document.CommonTx := { tx with Msgs := tx.Msgs ++ [document.DocTxMsg.mk (m.Type_ K) (.NFTEdit m)] }
    let tx : document.CommonTx := { tx with Types := tx.Types ++ [m.Type_ K] }
    let tx : document.CommonTx := { tx with Addrs := tx.Addrs ++ [m.Sender] }
    if tx.Msgs.length > 1 then some tx
    else some { tx with Type_ := m.Type_ K, From := m.Sender, To := "", Amount := [] }

/-- The Go method `DocMsgNFTTransfer.Type`. -/
def DocMsgNFTTransfer.Type_ (K : constant.Table) (_m : DocMsgNFTTransfer) : String :=
  K.TxTypeNFTTransfer

/-- The Go method `DocMsgNFTTransfer.BuildMsg`.  `none` is the panic of the type assertion
`v.(*types.MsgTransferNFT)` on another variant. -/
def DocMsgNFTTransfer.BuildMsg (U : unicode.Tables) (m : DocMsgNFTTransfer) :
    sdk.Msg → Option DocMsgNFTTransfer
  | .MsgTransferNFT msg =>
    some { m with
      Sender := msg.Sender, Recipient := msg.Recipient, Id := strings.ToLower U msg.Id,
      Denom := strings.ToLower U msg.Denom, URI := msg.URI, Data := msg.Data }
  | _ => none

/-- The Go method `DocMsgNFTTransfer.HandleTxMsg`. -/
def DocMsgNFTTransfer.HandleTxMsg (K : constant.Table) (U : unicode.Tables)
    (m : DocMsgNFTTransfer) (msgData : sdk.Msg) (tx : document.CommonTx) :
    Option document.CommonTx :=
  match m.BuildMsg U msgData with
  | none => none
  | some m =>
    let tx : document.CommonTx := { tx with Msgs := tx.Msgs ++ [document.DocTxMsg.mk (m.Type_ K) (.NFTTransfer m)] }
    let tx : document.CommonTx := { tx with Addrs := tx.Addrs ++ [m.Sender, m.Recipient] }
    let tx : document.CommonTx := { tx with Types := tx.Types ++ [m.Type_ K] }
    if tx.Msgs.length > 1 then some tx
    else some { tx with Type_ := m.Type_ K, From := m.Sender, To := m.Recipient, Amount := [] }

end nft

/-! ## `msg/evidence` -/

namespace evidence

/-- What `evidence.HandleTxMsg` calls outside these source files.

* `Type_` is the method `Type()` of a message;
* `MsgSubmitEvidenceType` is the string `new(types.MsgSubmitEvidence).Type()`;
* `DocMsgSubmitEvidenceHandleTxMsg` is the method `DocMsgSubmitEvidence.HandleTxMsg`: the
  record it returns, `none` when it panics. -/
structure Env where
  Type_ : sdk.Msg → String
  MsgSubmitEvidenceType : String
  DocMsgSubmitEvidenceHandleTxMsg : sdk.Msg → document.CommonTx → Option document.CommonTx

/-- The Go function `evidence.HandleTxMsg`: the record and `ok`; `none` is a panic of the
submit-evidence handler. -/
def HandleTxMsg (env : Env) (msg : sdk.Msg) (tx : document.CommonTx) :
    Option (document.CommonTx × Bool) :=
  let ok := true
  if env.Type_ msg = env.MsgSubmitEvidenceType then
    (env.DocMsgSubmitEvidenceHandleTxMsg msg tx).map fun tx => (tx, ok)
  else
    let ok := false
    some (tx, ok)

end evidence

/-! ## `cron/cron_task.go` -/

namespace cron

/-- The Go constant `Unknow_Status`. -/
def Unknow_Status : String := "unknown"

/-- The Go struct `MsgItem`: one stored `msgs` entry as the cron task reads it. -/
structure MsgItem where
  Type_ : String
  MsgData : document.MsgData
  deriving DecidableEq

/-- The Go struct `cron.CommonTx`: a stored record as the cron task reads it. -/
structure CommonTx where
  Time : Int := 0
  Height : Int := 0
  TxHash : String := ""
  From : String := ""
  To : String := ""
  Amount : List store.Coin := []
  Type_ : String := ""
  Fee : store.Fee := ⟨[], 0⟩
  Memo : String := ""
  Status : String := ""
  Code : Nat := 0
  Log : String := ""
  GasUsed : Int := 0
  GasWanted : Int := 0
  GasPrice : ℚ := 0
  ActualFee : store.ActualFee := ⟨"", 0⟩
  ProposalId : Nat := 0
  Tags : List (String × String) := []
  StakeCreateValidator : document.StakeCreateValidator := {}
  StakeEditValidator : document.StakeEditValidator := {}
  Signers : List document.Signer := []
  Msgs : List MsgItem := []
  deriving DecidableEq

end cron

namespace store

/-- The document collection `document.CollectionNmCommonTx`, the state of the store.

* `docs` are the stored records, in their natural order;
* `fault` is the error `store.ExecCollection` returns while the store cannot be reached, `none`
  when it can;
* `fetched` is a history variable that no code reads: the pages the `Find` queries have
  returned so far, oldest first. -/
structure Collection where
  docs : List cron.CommonTx := []
  fault : Option String := none
  fetched : List (List cron.CommonTx) := []

/-- The order of `Sort("-height")`: `a` may come before `b`. -/
def heightDesc (a b : cron.CommonTx) : Prop := a.Height ≥ b.Height

instance : DecidableRel heightDesc := fun a b => inferInstanceAs (Decidable (a.Height ≥ b.Height))

/-- The order of `Sort("-height")` is total. -/
instance heightDesc_isTotal : IsTotal cron.CommonTx heightDesc :=
  ⟨fun a b => by unfold heightDesc; exact le_total b.Height a.Height⟩

/-- The order of `Sort("-height")` is transitive. -/
instance heightDesc_isTrans : IsTrans cron.CommonTx heightDesc :=
  ⟨fun a b c hab hbc => by unfold heightDesc at *; exact le_trans hbc hab⟩

/-- The records of the query `Find(status = unknown).Sort("-height")`: the records whose
status is `unknown`, by descending height, records of equal height in their stored order. -/
def unknownTxs (docs : List cron.CommonTx) : List cron.CommonTx :=
  (docs.filter fun d => d.Status = cron.Unknow_Status).insertionSort heightDesc

/-- The query `c.Find(q).Sort(sorts...).Skip(skip).Limit(limit).All(&res)` of
`UpdateUnknownTxsByPage`, run through `store.ExecCollection`. -/
def Find (c : Collection) (skip limit : Nat) : Except String (List cron.CommonTx) × Collection :=
  match c.fault with
  | some err => (.error err, c)
  | none =>
    let res := ((unknownTxs c.docs).drop skip).take limit
    (.ok res, { c with fetched := c.fetched ++ [res] })

/-- The fields written by the `$set` of `UpdateUnknowTxs`. -/
def setFields (d : cron.CommonTx) (tx : document.CommonTx) : cron.CommonTx :=
  { d with
    ActualFee := tx.ActualFee, Status := tx.Status, Tags := tx.Tags,
    Msgs := tx.Msgs.map fun m => ⟨m.Type_, m.Msg⟩,
    Code := tx.Code, Log := tx.Log, GasWanted := tx.GasWanted }

/-- The effect of `c.Update` on the stored records: the first record whose `tx_hash` is the
one of `tx` gets the fields of `setFields`; `none` when no record has that `tx_hash`. -/
def updateFirst (tx : document.CommonTx) : List cron.CommonTx → Option (List cron.CommonTx)
  | [] => none
  | d :: ds =>
    if d.TxHash = tx.TxHash then some (setFields d tx :: ds)
    else (updateFirst tx ds).map fun ds => d :: ds

/-- The call `c.Update(bson.M{"tx_hash": tx.TxHash}, bson.M{"$set": ...})` of
`UpdateUnknowTxs`, run through `store.ExecCollection`: the error and the store afterwards. -/
def Update (c : Collection) (tx : document.CommonTx) : Option String × Collection :=
  match c.fault with
  | some err => (some err, c)
  | none =>
    match updateFirst tx c.docs with
    | none => (some "not found", c)
    | some docs => (none, { c with docs := docs })

end store

namespace cron

/-- The loop of `ParseUnknownTxs` over the raw transactions of the block; `commontx` is the
list built so far.  A panic of `ParseTx` is recovered by the deferred function, so the list
built so far is what the function returns. -/
def parseTxs (K : constant.Table) (env : helper.Env) (block : itypes.Block) :
    List itypes.Tx → List document.CommonTx → List document.CommonTx
  | [], commontx => commontx
  | txByte :: txs, commontx =>
    match helper.ParseTx K env txByte block with
    | none => commontx
    | some tx =>
      if tx.Status ≠ Unknow_Status then parseTxs K env block txs (commontx ++ [tx])
      else parseTxs K env block txs commontx

/-- The Go function `ParseUnknownTxs`: the named results `commontx` and `err`.  The statement
`block, err := client.Block(&b)` assigns the named result `err`, and nothing assigns it again
when the retry succeeds. -/
def ParseUnknownTxs (K : constant.Table) (env : helper.Env) (b : Int) (client : helper.Client) :
    List document.CommonTx × Option String :=
  match client.Block b with
  | .ok block => (parseTxs K env block.Block block.Block.Txs [], none)
  | .error err =>
    let client2 := env.retry
    match client2.Block b with
    | .error err2 => ([], some err2)
    | .ok block => (parseTxs K env block.Block block.Block.Txs [], some err)

/-- The Go function `UpdateUnknowTxs`: every update is issued and its error dropped. -/
def UpdateUnknowTxs (c : store.Collection) (commontx : List document.CommonTx) :
    store.Collection :=
  commontx.foldl (fun c dbval => (store.Update c dbval).2) c

/-- The Go function `doWork`. -/
def doWork (K : constant.Table) (env : helper.Env) (c : store.Collection)
    (commonTxs : List CommonTx) : store.Collection :=
  let client := env.work
  commonTxs.foldl (fun c val =>
    match ParseUnknownTxs K env val.Height client with
    | (_, some _) => c
    | (txs, none) => UpdateUnknowTxs c txs) c

/-- The Go function `UpdateUnknownTxsByPage`: the count, the error, and the store
afterwards. -/
def UpdateUnknownTxsByPage (K : constant.Table) (env : helper.Env) (c : store.Collection)
    (skip limit : Nat) : (Nat × Option String) × store.Collection :=
  match store.Find c skip limit with
  | (.error err, c) => ((0, some err), c)
  | (.ok res, c) =>
    let c := if res.length > 0 then doWork K env c res else c
    ((res.length, none), c)

/-- The loop of the closure `fn_update` of `StartCronService`, for at most `fuel` iterations.
`page` is the call `UpdateUnknownTxsByPage(skip, 20)` as a step on the state `σ` it runs in.
The result is the list of `(skip, total)` of the iterations and the final state, or `none` when
the loop is still running after `fuel` iterations. -/
def fn_update {σ : Type} (page : σ → Nat → Nat → (Nat × Option String) × σ) :
    Nat → σ → Nat → Option (List (Nat × Nat) × σ)
  | 0, _, _ => none
  | fuel + 1, s, skip =>
    match page s skip 20 with
    | ((total, _), s) =>
      if total < 20 then some ([(skip, total)], s)
      else (fn_update page fuel s (skip + total)).map fun r => ((skip, total) :: r.1, r.2)

/-- The error log of the loop of `fn_update`: the errors the iterations pass to
`logger.Error("GetUnknownTxsByPage have error", ...)`, in order, or `none` when the loop is
still running after `fuel` iterations. -/
def fn_update_errors {σ : Type} (page : σ → Nat → Nat → (Nat × Option String) × σ) :
    Nat → σ → Nat → Option (List String)
  | 0, _, _ => none
  | fuel + 1, s, skip =>
    match page s skip 20 with
    | ((total, err), s) =>
      let logged : List String :=
        match err with
        | some e => [e]
        | none => []
      if total < 20 then some logged
      else (fn_update_errors page fuel s (skip + total)).map fun r => logged ++ r

/-- The page step of a store that other processes write to while the scan runs: before the
`i`-th page is fetched the stored records become `others i docs`, then
`UpdateUnknownTxsByPage` runs.  The state is the number of pages fetched so far and the
store. -/
def racingPage (K : constant.Table) (env : helper.Env)
    (others : Nat → List CommonTx → List CommonTx) (s : Nat × store.Collection)
    (skip limit : Nat) : (Nat × Option String) × (Nat × store.Collection) :=
  let c : store.Collection := { s.2 with docs := others s.1 s.2.docs }
  match UpdateUnknownTxsByPage K env c skip limit with
  | (r, c) => (r, (s.1 + 1, c))

end cron

/-! ## Concrete inputs -/

namespace demo

/-- Values for the constants, used to run the code on concrete inputs. -/
def K : constant.Table where
  TxTypeTransfer := "Transfer"
  TxTypeBurn := "Burn"
  TxTypeStakeCreateValidator := "CreateValidator"
  TxTypeStakeEditValidator := "EditValidator"
  TxTypeStakeDelegate := "Delegate"
  TxTypeStakeBeginUnbonding := "BeginUnbonding"
  TxTypeBeginRedelegate := "BeginRedelegate"
  TxTypeUnjail := "Unjail"
  TxTypeSetWithdrawAddress := "SetWithdrawAddress"
  TxTypeWithdrawDelegatorReward := "WithdrawDelegatorReward"
  TxTypeWithdrawDelegatorRewardsAll := "WithdrawDelegatorRewardsAll"
  TxTypeWithdrawValidatorRewardsAll := "WithdrawValidatorRewardsAll"
  TxTypeSubmitProposal := "SubmitProposal"
  TxTypeDeposit := "Deposit"
  TxTypeVote := "Vote"
  TxTypeAssetIssueToken := "IssueToken"
  TxTypeAssetEditToken := "EditToken"
  TxTypeAssetMintToken := "MintToken"
  TxTypeAssetTransferTokenOwner := "TransferTokenOwner"
  TxTypeAssetCreateGateway := "CreateGateway"
  TxTypeAssetEditGateway := "EditGateway"
  TxTypeAssetTransferGatewayOwner := "TransferGatewayOwner"
  TxTypeNFTEdit := "NFTEdit"
  TxTypeNFTTransfer := "NFTTransfer"
  DocTxMsgIssueTokenType := "IssueToken"
  DocTxMsgEditTokenType := "EditToken"
  DocTxMsgMintTokenType := "MintToken"
  DocTxMsgTransferTokenOwnerType := "TransferTokenOwner"
  DocTxMsgCreateGatewayType := "CreateGateway"
  DocTxMsgEditGatewayType := "EditGateway"
  DocTxMsgTransferGatewayOwnerType := "TransferGatewayOwner"
  TagDistributionReward := "withdraw-reward-total"
  TagGovProposalID := "proposal-id"

/-- A client of a node that answers: the block at height `h` holds the one raw transaction
`[h]`; every transaction but `[9]` has the result code 0, gas wanted 50, gas used 30, and the
query for `[9]` fails. -/
def up : helper.Client where
  Block := fun h => .ok ⟨⟨h, 0, [[h.toNat]]⟩⟩
  Tx := fun hash => if hash = [9] then .error "tx not found" else .ok ⟨⟨0, "", 50, 30, []⟩⟩

/-- A client whose every call fails. -/
def down : helper.Client where
  Block := fun _ => .error "timeout"
  Tx := fun _ => .error "timeout"

/-- An envelope with one unjail message, the fee 100 stake and the gas limit 50. -/
def unjailTx : itypes.StdTx where
  Msgs := [.MsgUnjail ⟨"val"⟩]
  Fee := ⟨[⟨"stake", 100⟩], 50⟩
  Signatures := []
  Memo := ""

/-- An envelope with two token-issue messages. -/
def issueTwiceTx : itypes.StdTx where
  Msgs := [.AssetIssueToken ⟨"alice", "a"⟩, .AssetIssueToken ⟨"bob", "b"⟩]
  Fee := ⟨[⟨"stake", 100⟩], 50⟩
  Signatures := []
  Memo := ""

/-- A codec: the bytes `[0]` do not decode, `[1]` is an envelope without messages, `[2]` is
`issueTwiceTx`, and every other transaction is `unjailTx`. -/
def Unmarshal : itypes.Tx → Except String itypes.StdTx
  | [0] => .error "unmarshal failed"
  | [1] => .ok { Msgs := [], Fee := ⟨[], 0⟩, Signatures := [], Memo := "" }
  | [2] => .ok issueTwiceTx
  | _ => .ok unjailTx

/-- The surroundings of the code with `work` as the client handed to `doWork`; the retry and
the result queries go to the answering node. -/
def env (work : helper.Client) : helper.Env where
  Unmarshal := Unmarshal
  Hash := id
  ConvertAccountAddrFromHexToBech32 := fun s => .ok s
  Bech32ifyValPub := fun s => .ok s
  ParseCoins := fun _ => []
  ParseCoin := fun s => ⟨s, 0⟩
  ParseFloat := fun _ => 0
  work := work
  retry := up
  query := up

/-- The stored records with status `unknown` of the heights `h`, ..., `h + n - 1`, one for the
transaction of each block. -/
def unknownDocs (h n : Nat) : List cron.CommonTx :=
  (List.range n).map fun (i : Nat) =>
    { Height := ((h + i : Nat) : Int), TxHash := helper.BuildHex [h + i],
      Status := cron.Unknow_Status }

/-- A record that already holds one token-issue entry. -/
def issuedTx : document.CommonTx where
  Type_ := "IssueToken"
  From := "alice"
  Msgs := [⟨"IssueToken", .built (.AssetIssueToken ⟨"alice", "a"⟩)⟩]
  Types := ["IssueToken"]
  Addrs := ["alice"]

/-- The surroundings of the code when no node answers: every block and result query fails. -/
def offline : helper.Env where
  Unmarshal := Unmarshal
  Hash := id
  ConvertAccountAddrFromHexToBech32 := fun s => .ok s
  Bech32ifyValPub := fun s => .ok s
  ParseCoins := fun _ => []
  ParseCoin := fun s => ⟨s, 0⟩
  ParseFloat := fun _ => 0
  work := down
  retry := down
  query := down

/-- The surroundings of the code when the node answers block queries and every result query
fails. -/
def pending : helper.Env where
  Unmarshal := Unmarshal
  Hash := id
  ConvertAccountAddrFromHexToBech32 := fun s => .ok s
  Bech32ifyValPub := fun s => .ok s
  ParseCoins := fun _ => []
  ParseCoin := fun s => ⟨s, 0⟩
  ParseFloat := fun _ => 0
  work := up
  retry := up
  query := down

/-- The surroundings of `evidence.HandleTxMsg`: the type string of a message outside the
source files is the one it carries, every other message has the type `msg`; the
submit-evidence handler sets the canonical type. -/
def evidenceEnv : evidence.Env where
  Type_ := fun m =>
    match m with
    | .other t => t
    | _ => "msg"
  MsgSubmitEvidenceType := "submit_evidence"
  DocMsgSubmitEvidenceHandleTxMsg := fun _ tx => some { tx with Type_ := "SubmitEvidence" }

/-- An envelope with the first message of `issueTwiceTx` alone, another fee, a signature and a
memo. -/
def issueOnceTx : itypes.StdTx where
  Msgs := [.AssetIssueToken ⟨"alice", "a"⟩]
  Fee := ⟨[⟨"stake", 7⟩], 10⟩
  Signatures := [⟨"AA"⟩]
  Memo := "once"

/-- An envelope whose one message is a variant outside the source files. -/
def foreignTx : itypes.StdTx where
  Msgs := [.other "foreign"]
  Fee := ⟨[⟨"stake", 100⟩], 50⟩
  Signatures := [⟨"AA"⟩, ⟨"BB"⟩]
  Memo := "m"

/-- A codec that extends `Unmarshal`: the bytes `[3]` are `issueOnceTx` and `[4]` are
`foreignTx`. -/
def Unmarshal2 : itypes.Tx → Except String itypes.StdTx
  | [3] => .ok issueOnceTx
  | [4] => .ok foreignTx
  | t => Unmarshal t

/-- The surroundings `env up` with the codec `Unmarshal2`. -/
def env2 : helper.Env where
  Unmarshal := Unmarshal2
  Hash := id
  ConvertAccountAddrFromHexToBech32 := fun s => .ok s
  Bech32ifyValPub := fun s => .ok s
  ParseCoins := fun _ => []
  ParseCoin := fun s => ⟨s, 0⟩
  ParseFloat := fun _ => 0
  work := up
  retry := up
  query := up

/-- The stored record of the transaction `[7]` of the block at height 7, as `ParseTx` gives it
while the result query fails: status `unknown`, gas used 0, gas price 2, actual fee 0. -/
def pendingDoc : cron.CommonTx where
  Height := 7
  TxHash := "07"
  From := "val"
  Type_ := "Unjail"
  Fee := ⟨[⟨"stake", 100⟩], 50⟩
  Status := "unknown"
  GasUsed := 0
  GasWanted := 0
  GasPrice := 2
  ActualFee := ⟨"stake", 0⟩

/-- A stored record of another transaction. -/
def otherDoc : cron.CommonTx where
  Height := 8
  TxHash := "08"
  Status := "unknown"

/-- A resolved record for the transaction with the hash `07`. -/
def resolvedTx : document.CommonTx where
  TxHash := "07"
  Status := "success"
  Log := "ok"
  GasUsed := 30
  GasWanted := 30
  GasPrice := 2
  ActualFee := ⟨"stake", 60⟩
  Tags := [("action", "unjail")]
  From := "ignored"

/-- A store that holds 45 records with status `unknown` and cannot be reached. -/
def unreachable : store.Collection where
  docs := unknownDocs 1 45
  fault := some "no reachable servers"

/-- The case tables at the characters used here: the ASCII letters, `Ä` (U+00C4), whose
lowercase form is `ä` (U+00E4), and `ℂ` (U+2102), an uppercase letter that has no lowercase
form.  Every other character is taken as it is. -/
def unicode : unicode.Tables where
  ToLower := fun c => if c = Char.ofNat 196 then Char.ofNat 228 else c.toLower
  IsUpper := fun c => c.isUpper || c = Char.ofNat 196 || c = Char.ofNat 8450

/-- A client of a node whose every transaction has the result code 3, the log `done`, gas
wanted 50, gas used 30 and three attributes, two of them with the key `action`. -/
def tagged : helper.Client where
  Block := fun h => .ok ⟨⟨h, 0, [[h.toNat]]⟩⟩
  Tx := fun _ =>
    .ok ⟨⟨3, "done", 50, 30, [⟨"action", "send"⟩, ⟨"module", "bank"⟩, ⟨"action", "foreign"⟩]⟩⟩

/-- The surroundings with the codec `Unmarshal2`, the node `tagged`, and an address codec that
fails on `BB` and puts `iaa` before every other address. -/
def env3 : helper.Env where
  Unmarshal := Unmarshal2
  Hash := id
  ConvertAccountAddrFromHexToBech32 := fun s =>
    if s = "BB" then .error "bad address" else .ok ("iaa" ++ s)
  Bech32ifyValPub := fun s => .ok s
  ParseCoins := fun _ => []
  ParseCoin := fun s => ⟨s, 0⟩
  ParseFloat := fun _ => 0
  work := tagged
  retry := tagged
  query := tagged

/-- The surroundings `pending` with hashes that are byte strings: the hash of a transaction is
its bytes, each reduced to the range of a byte. -/
def pendingBytes : helper.Env where
  Unmarshal := Unmarshal
  Hash := fun t => t.map fun b => b % 256
  ConvertAccountAddrFromHexToBech32 := fun s => .ok s
  Bech32ifyValPub := fun s => .ok s
  ParseCoins := fun _ => []
  ParseCoin := fun s => ⟨s, 0⟩
  ParseFloat := fun _ => 0
  work := up
  retry := up
  query := down

end demo

/-! ## Properties of `ParseTx`, `QueryTxResult` and the NFT handlers -/

section ParseTxLemmas

/-- The type switch of `ParseTx` leaves the fields filled from the envelope and the result as
they are, and never touches `Types` and `Addrs`. -/
theorem helper.dispatch_keeps {K : constant.Table} {env : helper.Env}
    {result : itypes.ResponseDeliverTx} {docTx tx : document.CommonTx} {msg : sdk.Msg}
    (h : helper.dispatch K env result docTx msg = some tx) :
    tx.Time = docTx.Time ∧ tx.Height = docTx.Height ∧ tx.TxHash = docTx.TxHash ∧
    tx.Fee = docTx.Fee ∧ tx.Memo = docTx.Memo ∧ tx.Status = docTx.Status ∧
    tx.Code = docTx.Code ∧ tx.Log = docTx.Log ∧ tx.GasUsed = docTx.GasUsed ∧
    tx.GasWanted = docTx.GasWanted ∧ tx.GasPrice = docTx.GasPrice ∧
    tx.ActualFee = docTx.ActualFee ∧ tx.Tags = docTx.Tags ∧ tx.Signers = docTx.Signers ∧
    tx.Types = docTx.Types ∧ tx.Addrs = docTx.Addrs := by
  cases msg <;> simp only [helper.dispatch] at h
  case MsgTransfer m =>
    split at h
    · cases h; simp
    · cases h
  all_goals (cases h; simp)

/-- The type switch of `ParseTx` puts at most one entry into an empty `Msgs`. -/
theorem helper.dispatch_msgs {K : constant.Table} {env : helper.Env}
    {result : itypes.ResponseDeliverTx} {docTx tx : document.CommonTx} {msg : sdk.Msg}
    (h : helper.dispatch K env result docTx msg = some tx) (h0 : docTx.Msgs = []) :
    tx.Msgs.length ≤ 1 := by
  cases msg <;> simp only [helper.dispatch] at h
  case MsgTransfer m =>
    split at h
    · cases h; simp [h0]
    · cases h
  all_goals (cases h; simp [h0])

/-- The status of a record `ParseTx` returns is the empty string of the empty record, or the
status `QueryTxResult` gave. -/
theorem helper.ParseTx_status {K : constant.Table} {env : helper.Env} {txBytes : itypes.Tx}
    {block : itypes.Block} {tx : document.CommonTx}
    (h : helper.ParseTx K env txBytes block = some tx) :
    tx = {} ∨ tx.Status = (helper.QueryTxResult env (env.Hash txBytes)).1 := by
  unfold helper.ParseTx at h
  cases hdec : env.Unmarshal txBytes with
  | error e =>
    rw [hdec] at h
    simp only [Option.some.injEq] at h
    exact Or.inl h.symm
  | ok authTx =>
    rw [hdec] at h
    cases hm : authTx.Msgs with
    | nil =>
      simp only [hm, Option.some.injEq] at h
      exact Or.inl h.symm
    | cons msg rest =>
      simp only [hm] at h
      exact Or.inr (helper.dispatch_keeps h).2.2.2.2.2.1

end ParseTxLemmas

/-- C5 (the code breaks the claim): the claim says the list `ParseUnknownTxs` returns holds no
empty record.  For the bytes `[0]`, which do not decode, and `[1]`, an envelope without
messages, `ParseTx` returns the empty record; its status is the empty string, which is not
`unknown`, so `ParseUnknownTxs` lists it, and `doWork` issues the store update for it. -/
theorem C5_empty_record_is_listed :
    (demo.env demo.up).Unmarshal [0] = .error "unmarshal failed" ∧
    helper.ParseTx demo.K (demo.env demo.up) [0] ⟨0, 0, [[0]]⟩ = some {} ∧
    helper.ParseTx demo.K (demo.env demo.up) [1] ⟨1, 0, [[1]]⟩ = some {} ∧
    cron.ParseUnknownTxs demo.K (demo.env demo.up) 0 demo.up = ([{}], none) ∧
    cron.ParseUnknownTxs demo.K (demo.env demo.up) 1 demo.up = ([{}], none) ∧
    (∀ c : store.Collection, cron.doWork demo.K (demo.env demo.up) c [{ Height := 0 }] =
      (store.Update c {}).2) := by
  refine ⟨rfl, by decide, by decide, by decide, by decide, ?_⟩
  intro c
  rfl

/-- C6: for every record `ParseTx` builds from a decoded envelope with at least one message:
when the fee has a first amount `c` and a positive gas limit, the gas price is
`c.Amount / Fee.Gas` and the actual fee is `min(gasUsed, Fee.Gas) * gasPrice` in the
denomination of `c`, where `gasUsed` is the gas used of the query result; when the fee has no
amount, the gas price is 0 and the actual fee is the zero value. -/
theorem C6_fee_arithmetic (K : constant.Table) (env : helper.Env) (txBytes : itypes.Tx)
    (block : itypes.Block) (authTx : itypes.StdTx) (tx : document.CommonTx)
    (hdec : env.Unmarshal txBytes = .ok authTx) (hmsgs : authTx.Msgs ≠ [])
    (hret : helper.ParseTx K env txBytes block = some tx) :
    (∀ c cs, authTx.Fee.Amount = c :: cs → 0 < authTx.Fee.Gas →
      tx.GasPrice = c.Amount / (authTx.Fee.Gas : ℚ) ∧
      tx.ActualFee =
        ⟨c.Denom,
          ((min (helper.QueryTxResult env (env.Hash txBytes)).2.1.GasUsed authTx.Fee.Gas : ℤ) : ℚ)
            * (c.Amount / (authTx.Fee.Gas : ℚ))⟩) ∧
    (authTx.Fee.Amount = [] → tx.GasPrice = 0 ∧ tx.ActualFee = ⟨"", 0⟩) := by
  unfold helper.ParseTx at hret
  rw [hdec] at hret
  obtain ⟨msg, rest, hm⟩ := List.exists_cons_of_ne_nil hmsgs
  simp only [hm] at hret
  have hk := helper.dispatch_keeps hret
  obtain ⟨-, -, -, -, -, -, -, -, -, -, hgp, haf, -⟩ := hk
  constructor
  · intro c cs hc _
    simp only [hc] at hgp haf
    refine ⟨hgp, ?_⟩
    rw [haf]
    simp only [helper.Min]
    congr 2
    by_cases hlt : (helper.QueryTxResult env (env.Hash txBytes)).2.1.GasUsed < authTx.Fee.Gas
    · simp [hlt, min_eq_left (le_of_lt hlt)]
    · simp [hlt, min_eq_right (not_lt.mp hlt)]
  · intro hc
    simp only [hc] at hgp haf
    exact ⟨hgp, haf⟩

/-- The instance of C6 the spec gives: fee 100 stake, gas limit 50, gas used 30 give the gas
price 2 and the actual fee 60 stake. -/
theorem C6_fee_arithmetic_witness :
    ∃ tx, helper.ParseTx demo.K (demo.env demo.up) [7] ⟨7, 0, [[7]]⟩ = some tx ∧
      (demo.env demo.up).Unmarshal [7] = .ok demo.unjailTx ∧
      demo.unjailTx.Fee = ⟨[⟨"stake", 100⟩], 50⟩ ∧
      (helper.QueryTxResult (demo.env demo.up) [7]).2.1.GasUsed = 30 ∧
      tx.GasPrice = 2 ∧ tx.ActualFee = ⟨"stake", 60⟩ := by
  obtain ⟨tx, htx⟩ :
      ∃ tx, helper.ParseTx demo.K (demo.env demo.up) [7] ⟨7, 0, [[7]]⟩ = some tx := ⟨_, rfl⟩
  have h := (C6_fee_arithmetic demo.K (demo.env demo.up) [7] ⟨7, 0, [[7]]⟩ demo.unjailTx tx rfl
    (by decide) htx).1 ⟨"stake", 100⟩ [] rfl (by decide)
  have hg : (helper.QueryTxResult (demo.env demo.up) ((demo.env demo.up).Hash [7])).2.1.GasUsed
      = 30 := rfl
  rw [hg] at h
  refine ⟨tx, htx, rfl, rfl, rfl, h.1.trans ?_, h.2.trans ?_⟩
  · norm_num [demo.unjailTx]
  · norm_num [demo.unjailTx]

/-- C7 (the code breaks the claim): the claim says the stored fields of a record satisfy
`gas_price * gas_wanted = fee.amount[0].amount`.  `ParseTx` writes the gas used of the result
into `GasWanted`: for the fee 100 stake, gas limit 50 and gas used 30 the record has gas price
2 and `GasWanted` 30, so the product is 60 and not 100. -/
theorem C7_gas_wanted_holds_gas_used :
    ∃ tx, helper.ParseTx demo.K (demo.env demo.up) [7] ⟨7, 0, [[7]]⟩ = some tx ∧
      tx.Fee = ⟨[⟨"stake", 100⟩], 50⟩ ∧ tx.GasPrice = 2 ∧ tx.GasWanted = 30 ∧
      tx.GasPrice * (tx.GasWanted : ℚ) = 60 ∧ tx.GasPrice * (tx.GasWanted : ℚ) ≠ 100 := by
  refine ⟨_, rfl, by decide, ?_, by decide, ?_, ?_⟩ <;>
    simp [demo.env, demo.up, demo.Unmarshal, demo.unjailTx, helper.QueryTxResult,
      helper.Min] <;>
    norm_num

/-- C8: `QueryTxResult` returns status `unknown`, the zero-valued result and the error when
the node query fails, and the result of the node unchanged with status `fail` for a non-zero
code and `success` for the code zero when it succeeds; so the status is `unknown` exactly when
the query failed. -/
theorem C8_QueryTxResult_classifies (env : helper.Env) (txHash : List Nat) :
    (helper.QueryTxResult env txHash =
      match env.query.Tx txHash with
      | .error err => ("unknown", ⟨0, "", 0, 0, []⟩, some err)
      | .ok res =>
        (if res.TxResult.Code = 0 then document.TxStatusSuccess else document.TxStatusFail,
          res.TxResult, none)) ∧
    ((helper.QueryTxResult env txHash).1 = "unknown" ↔
      ∃ err, env.query.Tx txHash = .error err) := by
  unfold helper.QueryTxResult
  cases hq : env.query.Tx txHash with
  | error err => simp
  | ok res =>
    by_cases hc : res.TxResult.Code = 0
    · simp [hc, document.TxStatusSuccess]
    · simp [hc, document.TxStatusFail]

/-- C9: on a record whose `Msgs` is not empty, the NFT-edit handler returns the record with
one entry (the NFT-edit type and the built payload) appended to `Msgs`, the NFT-edit type
appended to `Types` and the sender appended to `Addrs`; the NFT-transfer handler appends one
entry to `Msgs`, the NFT-transfer type to `Types` and the sender then the recipient to
`Addrs`.  Every other field, `Type_`, `From`, `To` and `Amount` among them, is unchanged. -/
theorem C9_nft_handlers_append (K : constant.Table) (U : unicode.Tables)
    (tx : document.CommonTx) (hne : tx.Msgs ≠ []) :
    (∀ (m : nft.DocMsgNFTEdit) (msg : itypes.MsgEditNFT),
      ∃ d, m.BuildMsg U (.MsgEditNFT msg) = some d ∧ d.Sender = msg.Sender ∧
        m.HandleTxMsg K U (.MsgEditNFT msg) tx =
          some { tx with
            Msgs := tx.Msgs ++ [⟨K.TxTypeNFTEdit, .NFTEdit d⟩],
            Types := tx.Types ++ [K.TxTypeNFTEdit],
            Addrs := tx.Addrs ++ [msg.Sender] }) ∧
    (∀ (m : nft.DocMsgNFTTransfer) (msg : itypes.MsgTransferNFT),
      ∃ d, m.BuildMsg U (.MsgTransferNFT msg) = some d ∧ d.Sender = msg.Sender ∧
        d.Recipient = msg.Recipient ∧
        m.HandleTxMsg K U (.MsgTransferNFT msg) tx =
          some { tx with
            Msgs := tx.Msgs ++ [⟨K.TxTypeNFTTransfer, .NFTTransfer d⟩],
            Types := tx.Types ++ [K.TxTypeNFTTransfer],
            Addrs := tx.Addrs ++ [msg.Sender, msg.Recipient] }) := by
  have hlen : 0 < tx.Msgs.length := List.length_pos.mpr hne
  constructor
  · intro m msg
    refine ⟨_, rfl, rfl, ?_⟩
    simp [nft.DocMsgNFTEdit.HandleTxMsg, nft.DocMsgNFTEdit.BuildMsg, nft.DocMsgNFTEdit.Type_,
      hlen]
  · intro m msg
    refine ⟨_, rfl, rfl, rfl, ?_⟩
    simp [nft.DocMsgNFTTransfer.HandleTxMsg, nft.DocMsgNFTTransfer.BuildMsg,
      nft.DocMsgNFTTransfer.Type_, hlen]

/-- C9 at a record that already holds a token-issue entry: an NFT edit is appended and the
canonical fields stay those of the token issue. -/
theorem C9_nft_handlers_append_witness :
    demo.issuedTx.Msgs ≠ [] ∧
    nft.DocMsgNFTEdit.HandleTxMsg demo.K demo.unicode {}
        (.MsgEditNFT ⟨"bob", "ID1", "Art", "u", "d"⟩) demo.issuedTx =
      some
        { demo.issuedTx with
          Msgs := demo.issuedTx.Msgs ++ [⟨"NFTEdit", .NFTEdit ⟨"bob", "id1", "art", "u", "d"⟩⟩],
          Types := ["IssueToken", "NFTEdit"], Addrs := ["alice", "bob"] } := by
  refine ⟨by decide, ?_⟩
  obtain ⟨d, hd, -, h⟩ :=
    (C9_nft_handlers_append demo.K demo.unicode demo.issuedTx (by decide)).1 {}
      ⟨"bob", "ID1", "Art", "u", "d"⟩
  rw [h]
  cases hd
  decide

/-- C10 (the claim fails): the envelope `demo.issueTwiceTx` decodes with two token-issue
messages, and the record `ParseTx` produces has one `Msgs` entry and empty `Types` and
`Addrs`, not two entries each. -/
theorem C10_counterexample :
    ∃ tx, (demo.env demo.up).Unmarshal [2] = .ok demo.issueTwiceTx ∧
      demo.issueTwiceTx.Msgs.length = 2 ∧
      helper.ParseTx demo.K (demo.env demo.up) [2] ⟨2, 0, [[2]]⟩ = some tx ∧
      tx.Msgs.length = 1 ∧ tx.Types = [] ∧ tx.Addrs = [] ∧
      tx.Msgs.length ≠ demo.issueTwiceTx.Msgs.length ∧
      tx.Types.length ≠ demo.issueTwiceTx.Msgs.length := by
  refine ⟨_, rfl, by decide, rfl, ?_, ?_, ?_, ?_, ?_⟩ <;> decide

/-- C10 as amended: for every envelope that decodes with `N ≥ 2` messages, the record `ParseTx`
produces comes from the first message alone: `Msgs` has at most one entry, and `Types` and
`Addrs` are empty. -/
theorem C10_first_message_only (K : constant.Table) (env : helper.Env) (txBytes : itypes.Tx)
    (block : itypes.Block) (authTx : itypes.StdTx) (tx : document.CommonTx)
    (hdec : env.Unmarshal txBytes = .ok authTx) (hN : 2 ≤ authTx.Msgs.length)
    (hret : helper.ParseTx K env txBytes block = some tx) :
    tx.Msgs.length ≤ 1 ∧ tx.Types = [] ∧ tx.Addrs = [] := by
  unfold helper.ParseTx at hret
  rw [hdec] at hret
  cases hm : authTx.Msgs with
  | nil => simp [hm] at hN
  | cons msg rest =>
    simp only [hm] at hret
    have hk := helper.dispatch_keeps hret
    exact ⟨helper.dispatch_msgs hret rfl, hk.2.2.2.2.2.2.2.2.2.2.2.2.2.2.1,
      hk.2.2.2.2.2.2.2.2.2.2.2.2.2.2.2⟩

/-- The amended C10 at the envelope with two token-issue messages. -/
theorem C10_first_message_only_witness :
    ∃ tx, (demo.env demo.up).Unmarshal [2] = .ok demo.issueTwiceTx ∧
      2 ≤ demo.issueTwiceTx.Msgs.length ∧
      helper.ParseTx demo.K (demo.env demo.up) [2] ⟨2, 0, [[2]]⟩ = some tx ∧
      (tx.Msgs.length ≤ 1 ∧ tx.Types = [] ∧ tx.Addrs = []) :=
  ⟨_, rfl, by decide, rfl,
    C10_first_message_only demo.K (demo.env demo.up) [2] ⟨2, 0, [[2]]⟩ demo.issueTwiceTx _ rfl
      (by decide) rfl⟩

/-! ## Lemmas on the store and the scan loop -/

section StoreLemmas

open cron store helper

/-- Insertion sort maps a sublist to a sublist. -/
theorem store.insertionSort_sublist {l₁ l₂ : List cron.CommonTx} (h : l₁.Sublist l₂) :
    (l₁.insertionSort store.heightDesc).Sublist (l₂.insertionSort store.heightDesc) := by
  induction h with
  | slnil => exact List.Sublist.refl _
  | cons a _ ih =>
    exact ih.trans (List.sublist_orderedInsert a _)
  | cons₂ a _ ih =>
    exact List.Sublist.orderedInsert_sublist a ih (List.sorted_insertionSort _ _)

/-- An update with a status other than `unknown` removes records from the `unknown` ones and
adds none. -/
theorem store.updateFirst_unknown {tx : document.CommonTx}
    (htx : tx.Status ≠ cron.Unknow_Status) :
    ∀ {docs docs' : List cron.CommonTx}, store.updateFirst tx docs = some docs' →
      (docs'.filter fun d => d.Status = cron.Unknow_Status).Sublist
        (docs.filter fun d => d.Status = cron.Unknow_Status)
  | [], _, h => by simp [store.updateFirst] at h
  | d :: ds, docs', h => by
    unfold store.updateFirst at h
    split at h
    · cases h
      have hs : (store.setFields d tx).Status = tx.Status := rfl
      rw [List.filter_cons_of_neg (by simpa [hs] using htx)]
      exact List.Sublist.filter _ (List.sublist_cons_self d ds)
    · cases hu : store.updateFirst tx ds with
      | none => simp [hu] at h
      | some ds' =>
        simp only [hu, Option.map_some', Option.some.injEq] at h
        subst h
        have ih := store.updateFirst_unknown htx hu
        by_cases hd : d.Status = cron.Unknow_Status
        · simp only [List.filter_cons, hd, decide_True, if_true]
          exact ih.cons₂ d
        · simp only [List.filter_cons, hd, decide_False]
          exact ih

/-- The `unknown` records after an update with a status other than `unknown` are a sublist of
the ones before; the fault and the history are unchanged. -/
theorem store.Update_unknown {tx : document.CommonTx} (htx : tx.Status ≠ cron.Unknow_Status)
    (c : store.Collection) :
    (store.unknownTxs (store.Update c tx).2.docs).Sublist (store.unknownTxs c.docs) ∧
    (store.Update c tx).2.fault = c.fault ∧ (store.Update c tx).2.fetched = c.fetched := by
  unfold store.Update
  cases hf : c.fault with
  | some e => simp [hf]
  | none =>
    cases hu : store.updateFirst tx c.docs with
    | none => simp [hf]
    | some docs =>
      simp only [hf, and_self, and_true]
      exact store.insertionSort_sublist (store.updateFirst_unknown htx hu)

/-- The same for a list of updates. -/
theorem cron.UpdateUnknowTxs_unknown :
    ∀ (txs : List document.CommonTx) (c : store.Collection),
      (∀ tx ∈ txs, tx.Status ≠ cron.Unknow_Status) →
      (store.unknownTxs (cron.UpdateUnknowTxs c txs).docs).Sublist (store.unknownTxs c.docs) ∧
      (cron.UpdateUnknowTxs c txs).fault = c.fault ∧
      (cron.UpdateUnknowTxs c txs).fetched = c.fetched
  | [], c, _ => by simp [cron.UpdateUnknowTxs]
  | tx :: txs, c, h => by
    have h1 := store.Update_unknown (h tx (List.mem_cons_self _ _)) c
    have h2 := cron.UpdateUnknowTxs_unknown txs (store.Update c tx).2
      (fun t ht => h t (List.mem_cons_of_mem _ ht))
    have he : cron.UpdateUnknowTxs c (tx :: txs) =
        cron.UpdateUnknowTxs (store.Update c tx).2 txs := rfl
    rw [he]
    exact ⟨h2.1.trans h1.1, h2.2.1.trans h1.2.1, h2.2.2.trans h1.2.2⟩

/-- No record listed by the loop of `ParseUnknownTxs` has status `unknown`. -/
theorem cron.parseTxs_status (K : constant.Table) (env : helper.Env) (block : itypes.Block) :
    ∀ (txs : List itypes.Tx) (acc : List document.CommonTx),
      (∀ tx ∈ acc, tx.Status ≠ cron.Unknow_Status) →
      ∀ tx ∈ cron.parseTxs K env block txs acc, tx.Status ≠ cron.Unknow_Status
  | [], acc, h => by simpa [cron.parseTxs] using h
  | t :: ts, acc, h => by
    unfold cron.parseTxs
    cases hp : helper.ParseTx K env t block with
    | none => simpa using h
    | some tx =>
      by_cases hs : tx.Status ≠ cron.Unknow_Status
      · show ∀ x ∈ (if tx.Status ≠ cron.Unknow_Status then
            cron.parseTxs K env block ts (acc ++ [tx]) else cron.parseTxs K env block ts acc),
            x.Status ≠ cron.Unknow_Status
        rw [if_pos hs]
        apply cron.parseTxs_status K env block ts
        intro x hx
        rcases List.mem_append.mp hx with hx | hx
        · exact h x hx
        · simp only [List.mem_singleton] at hx
          subst hx
          exact hs
      · show ∀ x ∈ (if tx.Status ≠ cron.Unknow_Status then
            cron.parseTxs K env block ts (acc ++ [tx]) else cron.parseTxs K env block ts acc),
            x.Status ≠ cron.Unknow_Status
        rw [if_neg hs]
        exact cron.parseTxs_status K env block ts acc h

/-- No record `ParseUnknownTxs` returns has status `unknown`. -/
theorem cron.ParseUnknownTxs_status (K : constant.Table) (env : helper.Env) (b : Int)
    (client : helper.Client) :
    ∀ tx ∈ (cron.ParseUnknownTxs K env b client).1, tx.Status ≠ cron.Unknow_Status := by
  unfold cron.ParseUnknownTxs
  cases h1 : client.Block b with
  | ok block => exact cron.parseTxs_status K env _ _ [] (by simp)
  | error e =>
    cases h2 : env.retry.Block b with
    | ok block =>
      simp only [h2]
      exact cron.parseTxs_status K env _ _ [] (by simp)
    | error e2 => simp [h2]

/-- The records with status `unknown` after `doWork` are a sublist of the ones before; the fault
and the history are unchanged. -/
theorem cron.doWork_unknown (K : constant.Table) (env : helper.Env) :
    ∀ (res : List cron.CommonTx) (c : store.Collection),
      (store.unknownTxs (cron.doWork K env c res).docs).Sublist (store.unknownTxs c.docs) ∧
      (cron.doWork K env c res).fault = c.fault ∧
      (cron.doWork K env c res).fetched = c.fetched
  | [], c => by simp [cron.doWork]
  | val :: res, c => by
    have hstep : ∃ c1 : store.Collection,
        cron.doWork K env c (val :: res) = cron.doWork K env c1 res ∧
        (store.unknownTxs c1.docs).Sublist (store.unknownTxs c.docs) ∧
        c1.fault = c.fault ∧ c1.fetched = c.fetched := by
      rcases hp : cron.ParseUnknownTxs K env val.Height env.work with ⟨txs, err⟩
      cases err with
      | some e =>
        refine ⟨c, ?_, List.Sublist.refl _, rfl, rfl⟩
        simp only [cron.doWork, List.foldl_cons, hp]
      | none =>
        refine ⟨cron.UpdateUnknowTxs c txs, ?_, ?_⟩
        · simp only [cron.doWork, List.foldl_cons, hp]
        · apply cron.UpdateUnknowTxs_unknown
          have := cron.ParseUnknownTxs_status K env val.Height env.work
          rw [hp] at this
          exact this
    obtain ⟨c1, he, h1⟩ := hstep
    have h2 := cron.doWork_unknown K env res c1
    rw [he]
    exact ⟨h2.1.trans h1.1, h2.2.1.trans h1.2.1, h2.2.2.trans h1.2.2⟩

end StoreLemmas

section ScanLemmas

open cron store helper

/-- `UpdateUnknownTxsByPage` on a store that can be reached: the page is the segment of the
`unknown` records, it is added to the history, and `doWork` runs on it. -/
theorem cron.UpdateUnknownTxsByPage_ok (K : constant.Table) (env : helper.Env)
    (c : store.Collection) (skip limit : Nat) (hf : c.fault = none) :
    cron.UpdateUnknownTxsByPage K env c skip limit =
      ((min limit ((store.unknownTxs c.docs).length - skip), none),
        cron.doWork K env
          { c with fetched := c.fetched ++ [((store.unknownTxs c.docs).drop skip).take limit] }
          (((store.unknownTxs c.docs).drop skip).take limit)) := by
  unfold cron.UpdateUnknownTxsByPage store.Find
  simp only [hf, List.length_take, List.length_drop]
  split_ifs with h
  · rfl
  · have h0 : ((store.unknownTxs c.docs).drop skip).take limit = [] := by
      apply List.eq_nil_of_length_eq_zero
      simp only [List.length_take, List.length_drop]
      omega
    rw [h0]
    rfl

/-- `UpdateUnknownTxsByPage` on a store that cannot be reached. -/
theorem cron.UpdateUnknownTxsByPage_fault (K : constant.Table) (env : helper.Env)
    (c : store.Collection) (skip limit : Nat) (e : String) (hf : c.fault = some e) :
    cron.UpdateUnknownTxsByPage K env c skip limit = ((0, some e), c) := by
  unfold cron.UpdateUnknownTxsByPage store.Find
  simp only [hf]

/-- One unfolding of the loop of `fn_update`. -/
theorem cron.fn_update_succ {σ : Type} (page : σ → Nat → Nat → (Nat × Option String) × σ)
    (fuel : Nat) (s : σ) (skip : Nat) :
    cron.fn_update page (fuel + 1) s skip =
      if (page s skip 20).1.1 < 20 then some ([(skip, (page s skip 20).1.1)], (page s skip 20).2)
      else (cron.fn_update page fuel (page s skip 20).2 (skip + (page s skip 20).1.1)).map
        fun r => ((skip, (page s skip 20).1.1) :: r.1, r.2) := by
  rcases h : page s skip 20 with ⟨⟨total, e⟩, s'⟩
  simp only [cron.fn_update, h]

/-- Termination of the loop: when every page holds at most `N - skip` records, the loop ends
within `N / 20 + 1` iterations. -/
theorem cron.fn_update_bounded {σ : Type} (page : σ → Nat → Nat → (Nat × Option String) × σ)
    (I : σ → Prop) (N : Nat)
    (hpage : ∀ s skip, I s → (page s skip 20).1.1 ≤ N - skip ∧ I (page s skip 20).2) :
    ∀ (fuel k : Nat) (s : σ) (skip : Nat), I s → 20 * k ≤ skip → k ≤ N / 20 →
      N / 20 + 1 ≤ fuel + k →
      ∃ tr s', cron.fn_update page fuel s skip = some (tr, s') ∧ tr.length + k ≤ N / 20 + 1 ∧
        I s' := by
  intro fuel
  induction fuel with
  | zero =>
    intro k s skip _ _ hkN hf
    omega
  | succ fuel ih =>
    intro k s skip hI hk hkN hf
    obtain ⟨hle, hI'⟩ := hpage s skip hI
    rw [cron.fn_update_succ]
    by_cases hlt : (page s skip 20).1.1 < 20
    · rw [if_pos hlt]
      refine ⟨_, _, rfl, ?_, hI'⟩
      simp only [List.length_singleton]
      omega
    · rw [if_neg hlt]
      have hk' : 20 * (k + 1) ≤ skip + (page s skip 20).1.1 := by omega
      have hkN' : k + 1 ≤ N / 20 := by
        rw [Nat.le_div_iff_mul_le (by norm_num)]
        omega
      obtain ⟨tr, s', hrun, hlen, hIs⟩ := ih (k + 1) _ _ hI' hk' hkN' (by omega)
      refine ⟨_, s', by rw [hrun]; rfl, ?_, hIs⟩
      simp only [List.length_cons]
      omega

/-- What the loop returns comes from a state that satisfies the loop invariant `J` by one short
page. -/
theorem cron.fn_update_last {σ : Type} (page : σ → Nat → Nat → (Nat × Option String) × σ)
    (J : σ → Nat → Prop)
    (hstep : ∀ s skip, J s skip → 20 ≤ (page s skip 20).1.1 →
      J (page s skip 20).2 (skip + (page s skip 20).1.1)) :
    ∀ (fuel : Nat) (s : σ) (skip : Nat) (tr : List (Nat × Nat)) (s' : σ), J s skip →
      cron.fn_update page fuel s skip = some (tr, s') →
      ∃ s0 skip0, J s0 skip0 ∧ (page s0 skip0 20).1.1 < 20 ∧ s' = (page s0 skip0 20).2 := by
  intro fuel
  induction fuel with
  | zero =>
    intro s skip tr s' _ h
    simp [cron.fn_update] at h
  | succ fuel ih =>
    intro s skip tr s' hJ h
    rw [cron.fn_update_succ] at h
    by_cases hlt : (page s skip 20).1.1 < 20
    · rw [if_pos hlt] at h
      simp only [Option.some.injEq, Prod.mk.injEq] at h
      exact ⟨s, skip, hJ, hlt, h.2.symm⟩
    · rw [if_neg hlt] at h
      cases hr : cron.fn_update page fuel (page s skip 20).2 (skip + (page s skip 20).1.1) with
      | none => simp [hr] at h
      | some r =>
        rw [hr] at h
        simp only [Option.map_some', Option.some.injEq, Prod.mk.injEq] at h
        obtain ⟨tr', s''⟩ := r
        have := ih _ _ tr' s'' (hstep s skip hJ (not_lt.mp hlt)) hr
        simp only at h
        rw [← h.2]
        exact this

/-- The loop on pages of exactly `min 20 (N - skip)` records: the iterations are the pages at
`skip = 0, 20, 40, ...`, full up to the last one, which holds `N % 20` records. -/
theorem cron.fn_update_exact {σ : Type} (page : σ → Nat → Nat → (Nat × Option String) × σ)
    (I : σ → Prop) (N : Nat)
    (hpage : ∀ s skip, I s → (page s skip 20).1.1 = min 20 (N - skip) ∧ I (page s skip 20).2) :
    ∀ (fuel k : Nat) (s : σ), I s → k ≤ N / 20 → N / 20 + 1 ≤ fuel + k →
      ∃ s', cron.fn_update page fuel s (20 * k) =
          some ((List.range' k (N / 20 + 1 - k)).map
            (fun j => (20 * j, if j < N / 20 then 20 else N % 20)), s') ∧ I s' := by
  intro fuel
  induction fuel with
  | zero =>
    intro k s _ hkN hf
    omega
  | succ fuel ih =>
    intro k s hI hkN hf
    obtain ⟨heq, hI'⟩ := hpage s (20 * k) hI
    rw [cron.fn_update_succ]
    have hdm := Nat.div_add_mod N 20
    have hml := Nat.mod_lt N (show 20 > 0 by norm_num)
    by_cases hlt : k < N / 20
    · have h20 : (page s (20 * k) 20).1.1 = 20 := by rw [heq]; omega
      rw [if_neg (by omega), h20]
      obtain ⟨s', hrun, hIs⟩ := ih (k + 1) _ hI' hlt (by omega)
      rw [show 20 * k + 20 = 20 * (k + 1) by ring, hrun]
      refine ⟨s', ?_, hIs⟩
      have hr : N / 20 + 1 - k = (N / 20 + 1 - (k + 1)) + 1 := by omega
      rw [hr, List.range'_succ]
      simp [hlt]
    · have hk : k = N / 20 := by omega
      have hm : (page s (20 * k) 20).1.1 = N % 20 := by rw [heq]; omega
      rw [if_pos (by omega), hm]
      refine ⟨_, ?_, hI'⟩
      have hr : N / 20 + 1 - k = 1 := by omega
      rw [hr]
      simp [hk]

/-- A page followed by the records past it. -/
theorem store.take_append_drop_min {α : Type} (X : List α) (n : Nat) :
    X.take n ++ X.drop (min n X.length) = X := by
  by_cases h : n ≤ X.length
  · rw [min_eq_left h]
    exact List.take_append_drop _ _
  · rw [min_eq_right (by omega), List.take_of_length_le (by omega), List.drop_length,
      List.append_nil]

/-- The page count of `UpdateUnknownTxsByPage` is at most the number of `unknown` records past
`skip`, and the `unknown` records afterwards are a sublist of the ones before. -/
theorem cron.UpdateUnknownTxsByPage_le (K : constant.Table) (env : helper.Env)
    (c : store.Collection) (skip : Nat) :
    (cron.UpdateUnknownTxsByPage K env c skip 20).1.1 ≤ (store.unknownTxs c.docs).length - skip ∧
    (store.unknownTxs (cron.UpdateUnknownTxsByPage K env c skip 20).2.docs).Sublist
      (store.unknownTxs c.docs) := by
  cases hf : c.fault with
  | some e =>
    rw [cron.UpdateUnknownTxsByPage_fault K env c skip 20 e hf]
    exact ⟨Nat.zero_le _, List.Sublist.refl _⟩
  | none =>
    rw [cron.UpdateUnknownTxsByPage_ok K env c skip 20 hf]
    exact ⟨Nat.min_le_right _ _, (cron.doWork_unknown K env _ _).1⟩

/-- The loop invariant of the scan for the pages fetched: the pages so far, followed by the
`unknown` records past `skip`, are a sublist of the `unknown` records `U` at the start. -/
theorem cron.UpdateUnknownTxsByPage_fetched (K : constant.Table) (env : helper.Env)
    (c0 c : store.Collection) (U : List cron.CommonTx) (skip : Nat)
    (hJ : ∃ pages, c.fetched = c0.fetched ++ pages ∧
      (pages.flatten ++ (store.unknownTxs c.docs).drop skip).Sublist U) :
    ∃ pages, (cron.UpdateUnknownTxsByPage K env c skip 20).2.fetched = c0.fetched ++ pages ∧
      (pages.flatten ++ (store.unknownTxs (cron.UpdateUnknownTxsByPage K env c skip 20).2.docs).drop
        (skip + (cron.UpdateUnknownTxsByPage K env c skip 20).1.1)).Sublist U := by
  obtain ⟨pages, hp, hs⟩ := hJ
  cases hf : c.fault with
  | some e =>
    rw [cron.UpdateUnknownTxsByPage_fault K env c skip 20 e hf]
    exact ⟨pages, hp, by simpa using hs⟩
  | none =>
    rw [cron.UpdateUnknownTxsByPage_ok K env c skip 20 hf]
    obtain ⟨hsub, -, hfe⟩ := cron.doWork_unknown K env
      (((store.unknownTxs c.docs).drop skip).take 20)
      { c with fetched := c.fetched ++ [((store.unknownTxs c.docs).drop skip).take 20] }
    refine ⟨pages ++ [((store.unknownTxs c.docs).drop skip).take 20], ?_, ?_⟩
    · rw [hfe, hp, List.append_assoc]
    · refine List.Sublist.trans ?_ hs
      simp only [List.flatten_append, List.flatten_cons, List.flatten_nil, List.append_nil,
        List.append_assoc]
      refine List.Sublist.append (List.Sublist.refl _) ?_
      have h1 := hsub.drop (skip + min 20 ((store.unknownTxs c.docs).length - skip))
      have h2 : ((store.unknownTxs c.docs).drop skip).take 20 ++
          (store.unknownTxs c.docs).drop
            (skip + min 20 ((store.unknownTxs c.docs).length - skip)) =
          (store.unknownTxs c.docs).drop skip := by
        rw [← List.drop_drop, ← List.length_drop]
        exact store.take_append_drop_min _ _
      have h3 := List.Sublist.append
        (List.Sublist.refl (((store.unknownTxs c.docs).drop skip).take 20)) h1
      rw [h2] at h3
      exact h3

end ScanLemmas

/-! ## Properties of the reconciliation scan -/

/-- C1 (the code breaks the claim): the claim says a block fetch that fails on the primary
client and succeeds on the second client gives the same list and the same nil error as a
first-attempt success.  When the client of `doWork` fails with `err` and the retry client
returns the block `B`, `ParseUnknownTxs` returns the list parsed from `B` together with the
error `err` of the first attempt, whereas a client that returns `B` at once gives the same list
with no error; `doWork` then skips the update, so the store is left as it was. -/
theorem C1_retry_result_is_dropped (K : constant.Table) (env : helper.Env) (b : Int)
    (err : String) (B : itypes.ResultBlock)
    (hw : env.work.Block b = .error err) (hr : env.retry.Block b = .ok B) :
    cron.ParseUnknownTxs K env b env.work =
      (cron.parseTxs K env B.Block B.Block.Txs [], some err) ∧
    (∀ client : helper.Client, client.Block b = .ok B →
      cron.ParseUnknownTxs K env b client = (cron.parseTxs K env B.Block B.Block.Txs [], none)) ∧
    (∀ (c : store.Collection) (val : cron.CommonTx), val.Height = b →
      cron.doWork K env c [val] = c) := by
  have h1 : cron.ParseUnknownTxs K env b env.work =
      (cron.parseTxs K env B.Block B.Block.Txs [], some err) := by
    simp only [cron.ParseUnknownTxs, hw, hr]
  refine ⟨h1, ?_, ?_⟩
  · intro client hc
    simp only [cron.ParseUnknownTxs, hc]
  · intro c val hv
    simp only [cron.doWork, List.foldl_cons, List.foldl_nil, hv, h1]

/-- C1 at a node whose first block query at height 7 times out and whose retry answers: the
retry result carries the error `timeout`, and `doWork` leaves the record `unknown`, while with
a client that answers at once `doWork` resolves the record to `success`. -/
theorem C1_retry_result_is_dropped_witness :
    (demo.env demo.down).work.Block 7 = .error "timeout" ∧
    (demo.env demo.down).retry.Block 7 = .ok ⟨⟨7, 0, [[7]]⟩⟩ ∧
    (cron.ParseUnknownTxs demo.K (demo.env demo.down) 7 (demo.env demo.down).work).2 =
      some "timeout" ∧
    (cron.ParseUnknownTxs demo.K (demo.env demo.down) 7 (demo.env demo.down).work).1 =
      (cron.ParseUnknownTxs demo.K (demo.env demo.up) 7 demo.up).1 ∧
    (cron.ParseUnknownTxs demo.K (demo.env demo.up) 7 demo.up).2 = none ∧
    (cron.doWork demo.K (demo.env demo.down) { docs := demo.unknownDocs 7 1 }
        (demo.unknownDocs 7 1)).docs.map (fun d => d.Status) = ["unknown"] ∧
    (cron.doWork demo.K (demo.env demo.up) { docs := demo.unknownDocs 7 1 }
        (demo.unknownDocs 7 1)).docs.map (fun d => d.Status) = ["success"] := by
  have h := C1_retry_result_is_dropped demo.K (demo.env demo.down) 7 "timeout"
    ⟨⟨7, 0, [[7]]⟩⟩ rfl rfl
  refine ⟨rfl, rfl, ?_, ?_, rfl, ?_, by decide⟩
  · rw [h.1]
  · rw [h.1]; rfl
  · have h3 : cron.doWork demo.K (demo.env demo.down) { docs := demo.unknownDocs 7 1 }
        (demo.unknownDocs 7 1) = { docs := demo.unknownDocs 7 1 } :=
      h.2.2 { docs := demo.unknownDocs 7 1 }
        { Height := 7, TxHash := helper.BuildHex [7], Status := cron.Unknow_Status } rfl
    rw [h3]
    decide

/-- C2: on a store that can be reached, holds `N` records with status `unknown`, and whose
`unknown` records stay as they are whatever `doWork` processes, one run of the scan fetches
exactly `N / 20 + 1` pages, at `skip = 0, 20, 40, ...`, of sizes `20, ..., 20, N % 20`, and
stops after the short page. -/
theorem C2_scan_pages (K : constant.Table) (env : helper.Env) (c : store.Collection)
    (N fuel : Nat) (hf : c.fault = none) (hN : (store.unknownTxs c.docs).length = N)
    (hstatic : ∀ (c' : store.Collection) (res : List cron.CommonTx),
      store.unknownTxs c'.docs = store.unknownTxs c.docs →
      store.unknownTxs (cron.doWork K env c' res).docs = store.unknownTxs c.docs)
    (hfuel : N / 20 + 1 ≤ fuel) :
    ∃ c', cron.fn_update (cron.UpdateUnknownTxsByPage K env) fuel c 0 =
      some ((List.range (N / 20 + 1)).map
        (fun k => (20 * k, if k < N / 20 then 20 else N % 20)), c') := by
  have hpage : ∀ (s : store.Collection) (skip : Nat),
      (s.fault = none ∧ store.unknownTxs s.docs = store.unknownTxs c.docs) →
      (cron.UpdateUnknownTxsByPage K env s skip 20).1.1 = min 20 (N - skip) ∧
      ((cron.UpdateUnknownTxsByPage K env s skip 20).2.fault = none ∧
        store.unknownTxs (cron.UpdateUnknownTxsByPage K env s skip 20).2.docs =
          store.unknownTxs c.docs) := by
    intro s skip hs
    rw [cron.UpdateUnknownTxsByPage_ok K env s skip 20 hs.1, hs.2, hN]
    refine ⟨rfl, ?_, ?_⟩
    · rw [(cron.doWork_unknown K env _ _).2.1]
      exact hs.1
    · exact hstatic _ _ hs.2
  obtain ⟨c', hrun, -⟩ := cron.fn_update_exact (cron.UpdateUnknownTxsByPage K env)
    (fun s => s.fault = none ∧ store.unknownTxs s.docs = store.unknownTxs c.docs) N hpage
    fuel 0 c ⟨hf, rfl⟩ (Nat.zero_le _) (by omega)
  refine ⟨c', ?_⟩
  rw [Nat.mul_zero] at hrun
  rw [hrun, Nat.sub_zero, List.range_eq_range']

/-- C3: on a store that other processes write to while the scan runs, if these writes never
take the number of records with status `unknown` above `N` (they may resolve, reorder or
insert records at will), the scan stops after at most `N / 20 + 1` page fetches, whatever the
node answers. -/
theorem C3_scan_terminates (K : constant.Table) (env : helper.Env)
    (others : Nat → List cron.CommonTx → List cron.CommonTx) (c : store.Collection)
    (N fuel : Nat)
    (hothers : ∀ i docs, (store.unknownTxs docs).length ≤ N →
      (store.unknownTxs (others i docs)).length ≤ N)
    (h0 : (store.unknownTxs c.docs).length ≤ N) (hfuel : N / 20 + 1 ≤ fuel) :
    ∃ tr s', cron.fn_update (cron.racingPage K env others) fuel (0, c) 0 = some (tr, s') ∧
      tr.length ≤ N / 20 + 1 := by
  have hpage : ∀ (s : Nat × store.Collection) (skip : Nat),
      (store.unknownTxs s.2.docs).length ≤ N →
      (cron.racingPage K env others s skip 20).1.1 ≤ N - skip ∧
      (store.unknownTxs (cron.racingPage K env others s skip 20).2.2.docs).length ≤ N := by
    intro s skip hs
    have h1 := hothers s.1 s.2.docs hs
    have h2 := cron.UpdateUnknownTxsByPage_le K env
      { s.2 with docs := others s.1 s.2.docs } skip
    simp only [cron.racingPage]
    exact ⟨le_trans h2.1 (Nat.sub_le_sub_right h1 _), le_trans h2.2.length_le h1⟩
  obtain ⟨tr, s', hrun, hlen, -⟩ := cron.fn_update_bounded (cron.racingPage K env others)
    (fun s => (store.unknownTxs s.2.docs).length ≤ N) N hpage fuel 0 (0, c) 0 h0
    (Nat.zero_le _) (Nat.zero_le _) (by omega)
  exact ⟨tr, s', hrun, by omega⟩

/-- The page step on a store whose `unknown` records stay as they are: the page at `skip` is the
next 20 records of the list `U`, and the pages fetched so far make up `U.take (skip + 20)`. -/
theorem cron.UpdateUnknownTxsByPage_static (K : constant.Table) (env : helper.Env)
    (U : List cron.CommonTx) (c0 s : store.Collection) (skip : Nat)
    (hstatic : ∀ (c' : store.Collection) (res : List cron.CommonTx),
      store.unknownTxs c'.docs = U → store.unknownTxs (cron.doWork K env c' res).docs = U)
    (hJ : s.fault = none ∧ store.unknownTxs s.docs = U ∧
      ∃ pages, s.fetched = c0.fetched ++ pages ∧ pages.flatten = U.take skip) :
    (cron.UpdateUnknownTxsByPage K env s skip 20).1.1 = min 20 (U.length - skip) ∧
    ((cron.UpdateUnknownTxsByPage K env s skip 20).2.fault = none ∧
      store.unknownTxs (cron.UpdateUnknownTxsByPage K env s skip 20).2.docs = U ∧
      ∃ pages, (cron.UpdateUnknownTxsByPage K env s skip 20).2.fetched = c0.fetched ++ pages ∧
        pages.flatten = U.take (skip + 20)) := by
  obtain ⟨hf, hU, pages, hp, hfl⟩ := hJ
  rw [cron.UpdateUnknownTxsByPage_ok K env s skip 20 hf, hU]
  refine ⟨rfl, ?_, hstatic _ _ hU, pages ++ [(U.drop skip).take 20], ?_, ?_⟩
  · rw [(cron.doWork_unknown K env _ _).2.1]
    exact hf
  · rw [(cron.doWork_unknown K env _ _).2.2]
    show s.fetched ++ [(U.drop skip).take 20] = c0.fetched ++ (pages ++ [(U.drop skip).take 20])
    rw [hp, List.append_assoc]
  · rw [List.flatten_append, hfl, List.take_add]
    simp

/-- C4 (refuted as stated): 21 records with status `unknown` at the heights 100 to 120, on a
node that resolves every one of them.  The first page returns the 20 records of the heights
120 down to 101 and resolves them; the second page skips 20 of the one record left and is
empty, so the scan ends and the record of height 100, `unknown` at the start, is in no fetched
page. -/
theorem C4_counterexample :
    ∃ c', cron.fn_update (cron.UpdateUnknownTxsByPage demo.K (demo.env demo.up)) 2
        { docs := demo.unknownDocs 100 21 } 0 = some ([(0, 20), (20, 0)], c') ∧
      (∃ d ∈ store.unknownTxs (demo.unknownDocs 100 21), d.Height = 100 ∧
        ∀ page ∈ c'.fetched, ∀ r ∈ page, r.TxHash ≠ d.TxHash) := by
  have h1 : (cron.fn_update (cron.UpdateUnknownTxsByPage demo.K (demo.env demo.up)) 2
      { docs := demo.unknownDocs 100 21 } 0).map (fun r => r.1) =
      some [(0, 20), (20, 0)] := by decide
  have h2 : (cron.fn_update (cron.UpdateUnknownTxsByPage demo.K (demo.env demo.up)) 2
      { docs := demo.unknownDocs 100 21 } 0).map (fun r => decide
        (∃ d ∈ store.unknownTxs (demo.unknownDocs 100 21), d.Height = 100 ∧
          ∀ page ∈ r.2.fetched, ∀ x ∈ page, x.TxHash ≠ d.TxHash)) = some true := by decide
  cases h : cron.fn_update (cron.UpdateUnknownTxsByPage demo.K (demo.env demo.up)) 2
      { docs := demo.unknownDocs 100 21 } 0 with
  | none =>
    rw [h] at h1
    cases h1
  | some r =>
    rw [h] at h1 h2
    obtain ⟨tr, c'⟩ := r
    have h3 : tr = [(0, 20), (20, 0)] := Option.some.inj h1
    subst h3
    exact ⟨c', rfl, of_decide_eq_true (Option.some.inj h2)⟩

/-- C4 (amended): one run of the scan ends, and the pages it fetched, one after the other, are
a sublist of the list of the records that had status `unknown` when the scan started: no record
is returned twice, whatever the store holds and whatever the resolution gives.  When the store
can be reached and the `unknown` records stay as they are during the scan, the pages are that
list exactly, so every record is returned once. -/
theorem C4_pages_sublist_of_unknown (K : constant.Table) (env : helper.Env)
    (c : store.Collection) (fuel : Nat)
    (hfuel : (store.unknownTxs c.docs).length / 20 + 1 ≤ fuel) :
    ∃ tr c' pages, cron.fn_update (cron.UpdateUnknownTxsByPage K env) fuel c 0 = some (tr, c') ∧
      c'.fetched = c.fetched ++ pages ∧
      pages.flatten.Sublist (store.unknownTxs c.docs) ∧
      (c.fault = none →
        (∀ (c1 : store.Collection) (res : List cron.CommonTx),
          store.unknownTxs c1.docs = store.unknownTxs c.docs →
          store.unknownTxs (cron.doWork K env c1 res).docs = store.unknownTxs c.docs) →
        pages.flatten = store.unknownTxs c.docs) := by
  have hpage : ∀ (s : store.Collection) (skip : Nat),
      (store.unknownTxs s.docs).Sublist (store.unknownTxs c.docs) →
      (cron.UpdateUnknownTxsByPage K env s skip 20).1.1 ≤
        (store.unknownTxs c.docs).length - skip ∧
      (store.unknownTxs (cron.UpdateUnknownTxsByPage K env s skip 20).2.docs).Sublist
        (store.unknownTxs c.docs) := by
    intro s skip hs
    have h := cron.UpdateUnknownTxsByPage_le K env s skip
    exact ⟨le_trans h.1 (Nat.sub_le_sub_right hs.length_le _), h.2.trans hs⟩
  obtain ⟨tr, c', hrun, -, -⟩ := cron.fn_update_bounded (cron.UpdateUnknownTxsByPage K env)
    (fun s => (store.unknownTxs s.docs).Sublist (store.unknownTxs c.docs))
    (store.unknownTxs c.docs).length hpage fuel 0 c 0 (List.Sublist.refl _)
    (Nat.zero_le _) (Nat.zero_le _) (by omega)
  obtain ⟨s0, skip0, hJ0, -, hc'⟩ := cron.fn_update_last (cron.UpdateUnknownTxsByPage K env)
    (fun s skip => ∃ pages, s.fetched = c.fetched ++ pages ∧
      (pages.flatten ++ (store.unknownTxs s.docs).drop skip).Sublist (store.unknownTxs c.docs))
    (fun s skip hJ _ => cron.UpdateUnknownTxsByPage_fetched K env c s _ skip hJ)
    fuel c 0 tr c' ⟨[], by simp, by simp⟩ hrun
  obtain ⟨pages, hp, hsub⟩ := cron.UpdateUnknownTxsByPage_fetched K env c s0 _ skip0 hJ0
  rw [← hc'] at hp
  refine ⟨tr, c', pages, hrun, hp, (List.sublist_append_left _ _).trans hsub, ?_⟩
  intro hf hstatic
  obtain ⟨s1, skip1, hJ1, hlt, hc1⟩ := cron.fn_update_last (cron.UpdateUnknownTxsByPage K env)
    (fun s skip => s.fault = none ∧ store.unknownTxs s.docs = store.unknownTxs c.docs ∧
      ∃ pages, s.fetched = c.fetched ++ pages ∧
        pages.flatten = (store.unknownTxs c.docs).take skip)
    (fun s skip hJ h20 => by
      have h := cron.UpdateUnknownTxsByPage_static K env _ c s skip hstatic hJ
      have he : skip + (cron.UpdateUnknownTxsByPage K env s skip 20).1.1 = skip + 20 := by
        have := h.1
        omega
      rw [he]
      exact h.2)
    fuel c 0 tr c' ⟨hf, rfl, [], by simp, by simp⟩ hrun
  have h := cron.UpdateUnknownTxsByPage_static K env _ c s1 skip1 hstatic hJ1
  obtain ⟨-, -, pages1, hp1, hfl1⟩ := h.2
  rw [← hc1, hp] at hp1
  rw [List.append_cancel_left hp1, hfl1]
  apply List.take_of_length_le
  have := h.1
  omega

/-- When no node answers, `doWork` leaves the store as it is. -/
theorem demo.doWork_offline :
    ∀ (res : List cron.CommonTx) (c : store.Collection),
      cron.doWork demo.K demo.offline c res = c := by
  intro res c
  simp [cron.doWork, cron.ParseUnknownTxs, demo.offline, demo.down]

/-- C2 at 45 records with status `unknown` and no node answering: the scan fetches the three
pages at `skip` 0, 20 and 40, of sizes 20, 20 and 5. -/
theorem C2_scan_pages_witness :
    (store.unknownTxs (demo.unknownDocs 1 45)).length = 45 ∧
    ∃ c', cron.fn_update (cron.UpdateUnknownTxsByPage demo.K demo.offline) 3
      { docs := demo.unknownDocs 1 45 } 0 = some ([(0, 20), (20, 20), (40, 5)], c') :=
  ⟨by decide,
    C2_scan_pages demo.K demo.offline { docs := demo.unknownDocs 1 45 } 45 3 rfl (by decide)
      (fun c1 res h => by rw [demo.doWork_offline]; exact h) (by decide)⟩

/-- C3 at 45 records with status `unknown`, a node that resolves every record, and another
process that deletes the first stored record before every page fetch: the scan stops within
three page fetches. -/
theorem C3_scan_terminates_witness :
    (store.unknownTxs (demo.unknownDocs 1 45)).length ≤ 45 ∧
    ∃ tr s', cron.fn_update
        (cron.racingPage demo.K (demo.env demo.up) (fun _ docs => docs.tail)) 3
        (0, { docs := demo.unknownDocs 1 45 }) 0 = some (tr, s') ∧ tr.length ≤ 3 :=
  ⟨by decide,
    C3_scan_terminates demo.K (demo.env demo.up) (fun _ docs => docs.tail)
      { docs := demo.unknownDocs 1 45 } 45 3
      (fun _ docs h => by
        refine le_trans ?_ h
        simp only [store.unknownTxs, List.length_insertionSort]
        exact ((List.tail_sublist docs).filter _).length_le)
      (by decide) (by decide)⟩

/-- The amended C4 at the 21 records of the heights 100 to 120 on a node that resolves every
record: the scan ends and its pages are a sublist of the 21 records. -/
theorem C4_pages_sublist_of_unknown_witness :
    (store.unknownTxs (demo.unknownDocs 100 21)).length / 20 + 1 ≤ 2 ∧
    ∃ tr c' pages, cron.fn_update (cron.UpdateUnknownTxsByPage demo.K (demo.env demo.up)) 2
        { docs := demo.unknownDocs 100 21 } 0 = some (tr, c') ∧
      c'.fetched = pages ∧
      pages.flatten.Sublist (store.unknownTxs (demo.unknownDocs 100 21)) := by
  refine ⟨by decide, ?_⟩
  obtain ⟨tr, c', pages, h1, h2, h3, -⟩ := C4_pages_sublist_of_unknown demo.K
    (demo.env demo.up) { docs := demo.unknownDocs 100 21 } 2 (by decide)
  exact ⟨tr, c', pages, h1, by simpa using h2, h3⟩

/-! ## Properties of the summary, the tags and the handlers -/

/-- The canonical fields the type switch of `ParseTx` gives depend on the message, the result
and the canonical fields of the record it starts from, and on nothing else. -/
theorem helper.dispatch_summary {K : constant.Table} {env : helper.Env}
    {result : itypes.ResponseDeliverTx} {d1 d2 : document.CommonTx} (msg : sdk.Msg)
    (h : d1.Type_ = d2.Type_ ∧ d1.From = d2.From ∧ d1.To = d2.To ∧ d1.Amount = d2.Amount) :
    (helper.dispatch K env result d1 msg).map (fun tx => (tx.Type_, tx.From, tx.To, tx.Amount)) =
    (helper.dispatch K env result d2 msg).map
      (fun tx => (tx.Type_, tx.From, tx.To, tx.Amount)) := by
  obtain ⟨h1, h2, h3, h4⟩ := h
  cases msg <;> simp only [helper.dispatch]
  case MsgTransfer m =>
    split <;> simp
  all_goals simp [h1, h2, h3, h4]

/-- C11: two envelopes that decode with the same first message and whose result queries give
the same execution result yield records with the same `Type_`, `From`, `To` and `Amount`,
whatever the messages after the first, the fees, the memos, the signatures and the blocks are;
and `ParseTx` panics on the one exactly when it panics on the other. -/
theorem C11_summary_from_first_message (K : constant.Table) (env : helper.Env)
    (tx1 tx2 : itypes.Tx) (block1 block2 : itypes.Block) (authTx1 authTx2 : itypes.StdTx)
    (msg : sdk.Msg) (rest1 rest2 : List sdk.Msg)
    (hdec1 : env.Unmarshal tx1 = .ok authTx1) (hdec2 : env.Unmarshal tx2 = .ok authTx2)
    (hmsgs1 : authTx1.Msgs = msg :: rest1) (hmsgs2 : authTx2.Msgs = msg :: rest2)
    (hres : (helper.QueryTxResult env (env.Hash tx1)).2.1 =
      (helper.QueryTxResult env (env.Hash tx2)).2.1) :
    (helper.ParseTx K env tx1 block1).map (fun tx => (tx.Type_, tx.From, tx.To, tx.Amount)) =
    (helper.ParseTx K env tx2 block2).map (fun tx => (tx.Type_, tx.From, tx.To, tx.Amount)) := by
  unfold helper.ParseTx
  rw [hdec1, hdec2]
  simp only [hmsgs1, hmsgs2]
  rw [hres]
  exact helper.dispatch_summary msg ⟨rfl, rfl, rfl, rfl⟩

/-- On records with distinct `tx_hash`, `updateFirst` rewrites the record that has the hash
of `tx` and leaves the list as it is when there is none. -/
theorem store.updateFirst_map (tx : document.CommonTx) :
    ∀ docs : List cron.CommonTx, (docs.map fun d => d.TxHash).Nodup →
      (store.updateFirst tx docs).getD docs =
        docs.map fun d => if d.TxHash = tx.TxHash then store.setFields d tx else d
  | [], _ => rfl
  | d :: ds, hnd => by
    rw [List.map_cons, List.nodup_cons] at hnd
    have ih := store.updateFirst_map tx ds hnd.2
    by_cases hd : d.TxHash = tx.TxHash
    · have hds : ∀ x ∈ ds, (if x.TxHash = tx.TxHash then store.setFields x tx else x) = x := by
        intro x hx
        have hne : ¬ x.TxHash = tx.TxHash := by
          intro hxe
          exact hnd.1 (List.mem_map.mpr ⟨x, hx, hxe.trans hd.symm⟩)
        rw [if_neg hne]
      simp only [store.updateFirst, if_pos hd, Option.getD_some, List.map_cons]
      rw [List.map_congr_left hds]
      simp
    · simp only [store.updateFirst, if_neg hd, List.map_cons]
      cases hu : store.updateFirst tx ds with
      | none =>
        rw [hu] at ih
        simp only [Option.getD_none] at ih
        simp only [Option.map_none', Option.getD_none]
        rw [← ih]
      | some ds' =>
        rw [hu] at ih
        simp only [Option.getD_some] at ih
        simp only [Option.map_some', Option.getD_some]
        rw [ih]

/-- C12: on a store that can be reached and whose records have distinct `tx_hash` (the store as
a map from `tx_hash` to record), `UpdateUnknowTxs` with the one record `t` rewrites the stored
record with the `tx_hash` of `t`: its `ActualFee`, `Status`, `Tags`, `Msgs`, `Code`, `Log` and
`GasWanted` become those of `t` and every other field keeps its value.  Every other record is
unchanged, in its place; no record is added or removed. -/
theorem C12_update_sets_seven_fields (c : store.Collection) (t : document.CommonTx)
    (hf : c.fault = none) (hnd : (c.docs.map fun d => d.TxHash).Nodup) :
    cron.UpdateUnknowTxs c [t] =
      { c with
        docs := c.docs.map fun r =>
          if r.TxHash = t.TxHash then
            { Time := r.Time, Height := r.Height, TxHash := r.TxHash, From := r.From,
              To := r.To, Amount := r.Amount, Type_ := r.Type_, Fee := r.Fee, Memo := r.Memo,
              Status := t.Status, Code := t.Code, Log := t.Log, GasUsed := r.GasUsed,
              GasWanted := t.GasWanted, GasPrice := r.GasPrice, ActualFee := t.ActualFee,
              ProposalId := r.ProposalId, Tags := t.Tags,
              StakeCreateValidator := r.StakeCreateValidator,
              StakeEditValidator := r.StakeEditValidator, Signers := r.Signers,
              Msgs := t.Msgs.map fun m => ⟨m.Type_, m.Msg⟩ }
          else r } := by
  have h := store.updateFirst_map t c.docs hnd
  simp only [cron.UpdateUnknowTxs, List.foldl_cons, List.foldl_nil, store.Update, hf]
  cases hu : store.updateFirst t c.docs with
  | none =>
    rw [hu] at h
    simp only [Option.getD_none] at h
    obtain ⟨docs, fault, fetched⟩ := c
    simp only at h ⊢
    congr 1
  | some docs' =>
    rw [hu] at h
    simp only [Option.getD_some] at h
    simp only
    rw [h]
    rfl

/-- A lookup after an assignment: the assigned key has the new value, every other key the value
it had. -/
theorem helper.mapGet_mapSet (key value k : String) :
    ∀ m : List (String × String),
      helper.mapGet (helper.mapSet m key value) k =
        if key = k then some value else helper.mapGet m k
  | [] => by
    by_cases h : key = k <;> simp [helper.mapSet, helper.mapGet, h]
  | (k0, v0) :: rest => by
    have ih := helper.mapGet_mapSet key value k rest
    simp only [helper.mapGet] at ih ⊢
    by_cases h0 : k0 = key
    · subst h0
      by_cases h : k0 = k <;> simp [helper.mapSet, h]
    · by_cases h : k0 = k
      · subst h
        have hne : ¬ key = k0 := fun e => h0 e.symm
        simp [helper.mapSet, h0, hne]
      · simp only [helper.mapSet, if_neg h0, List.find?_cons]
        simp only [h, decide_False]
        exact ih

/-- The keys after an assignment are the keys before together with the assigned key. -/
theorem helper.mem_keys_mapSet (key value k : String) :
    ∀ m : List (String × String),
      k ∈ (helper.mapSet m key value).map Prod.fst ↔ k = key ∨ k ∈ m.map Prod.fst
  | [] => by simp [helper.mapSet]
  | (k0, v0) :: rest => by
    have ih := helper.mem_keys_mapSet key value k rest
    by_cases h0 : k0 = key
    · subst h0
      simp [helper.mapSet]
    · simp only [helper.mapSet, if_neg h0, List.map_cons, List.mem_cons, ih]
      tauto

/-- An assignment keeps the keys distinct. -/
theorem helper.nodup_keys_mapSet (key value : String) :
    ∀ m : List (String × String), (m.map Prod.fst).Nodup →
      ((helper.mapSet m key value).map Prod.fst).Nodup
  | [], _ => by simp [helper.mapSet]
  | (k0, v0) :: rest, h => by
    rw [List.map_cons, List.nodup_cons] at h
    by_cases h0 : k0 = key
    · simp only [helper.mapSet, if_pos h0, List.map_cons, List.nodup_cons]
      exact h
    · simp only [helper.mapSet, if_neg h0, List.map_cons, List.nodup_cons]
      refine ⟨?_, helper.nodup_keys_mapSet key value rest h.2⟩
      rw [helper.mem_keys_mapSet]
      rintro (e | e)
      · exact h0 e
      · exact h.1 e

/-- C14: for every result and every key `k`, the map `parseTags` builds holds for `k` the value
of the last attribute with the key `k`, and no entry when no attribute has the key `k`; its
keys are distinct, and they are the keys of the attributes. -/
theorem C14_parseTags_last_write_wins (result : itypes.ResponseDeliverTx) :
    (∀ k : String, helper.mapGet (helper.parseTags result) k =
      (result.Tags.reverse.find? fun tag => tag.Key = k).map fun tag => tag.Value) ∧
    (∀ k : String, (∀ tag ∈ result.Tags, tag.Key ≠ k) →
      helper.mapGet (helper.parseTags result) k = none ∧
      k ∉ (helper.parseTags result).map Prod.fst) ∧
    ((helper.parseTags result).map Prod.fst).Nodup ∧
    (∀ k : String, k ∈ (helper.parseTags result).map Prod.fst ↔
      ∃ tag ∈ result.Tags, tag.Key = k) := by
  obtain ⟨code, log, gw, gu, tags⟩ := result
  simp only [helper.parseTags]
  have key : ∀ L : List itypes.TmKVPair,
      (∀ k : String,
        helper.mapGet (L.foldl (fun tags tag => helper.mapSet tags tag.Key tag.Value) []) k =
          (L.reverse.find? fun tag => tag.Key = k).map fun tag => tag.Value) ∧
      ((L.foldl (fun tags tag => helper.mapSet tags tag.Key tag.Value) []).map Prod.fst).Nodup ∧
      (∀ k : String,
        k ∈ (L.foldl (fun tags tag => helper.mapSet tags tag.Key tag.Value) []).map Prod.fst ↔
          ∃ tag ∈ L, tag.Key = k) := by
    intro L
    induction L using List.reverseRecOn with
    | nil => simp [helper.mapGet]
    | append_singleton L x ih =>
      obtain ⟨ih1, ih2, ih3⟩ := ih
      simp only [List.foldl_append, List.foldl_cons, List.foldl_nil, List.reverse_append,
        List.reverse_cons, List.reverse_nil, List.nil_append, List.singleton_append]
      refine ⟨?_, helper.nodup_keys_mapSet _ _ _ ih2, ?_⟩
      · intro k
        rw [helper.mapGet_mapSet, ih1 k]
        by_cases h : x.Key = k <;> simp [List.find?_cons, h]
      · intro k
        rw [helper.mem_keys_mapSet, ih3 k]
        constructor
        · rintro (e | ⟨tag, ht, e⟩)
          · exact ⟨x, by simp, e.symm⟩
          · exact ⟨tag, by simp [ht], e⟩
        · rintro ⟨tag, ht, e⟩
          rw [List.mem_append, List.mem_singleton] at ht
          rcases ht with ht | ht
          · exact Or.inr ⟨tag, ht, e⟩
          · subst ht
            exact Or.inl e.symm
  obtain ⟨h1, h2, h3⟩ := key tags
  refine ⟨h1, ?_, h2, h3⟩
  intro k hk
  constructor
  · rw [h1 k]
    have : (tags.reverse.find? fun tag => tag.Key = k) = none := by
      rw [List.find?_eq_none]
      intro tag ht
      simpa using hk tag (List.mem_reverse.mp ht)
    rw [this]
    rfl
  · rw [h3 k]
    rintro ⟨tag, ht, e⟩
    exact hk tag ht e

/-- The lowercase form of a character is not an uppercase ASCII letter, and lowercasing it
again gives it back. -/
theorem strings.toLower_char (c : Char) :
    c.toLower.isUpper = false ∧ c.toLower.toLower = c.toLower := by
  by_cases h : c.toNat ≥ 65 ∧ c.toNat ≤ 90
  · obtain ⟨n, hn⟩ : ∃ n : Nat, c.toNat = n := ⟨_, rfl⟩
    rw [hn] at h
    have hc : c = Char.ofNat n := by
      rw [← hn]
      exact (Char.ofNat_toNat c).symm
    subst hc
    obtain ⟨h1, h2⟩ := h
    interval_cases n <;> decide
  · have hl : c.toLower = c := by
      unfold Char.toLower
      simp only [h, if_false]
    rw [hl]
    refine ⟨?_, hl⟩
    unfold Char.isUpper
    have h65 : (65 : UInt32).toNat = 65 := rfl
    have h90 : (90 : UInt32).toNat = 90 := rfl
    have e1 : (c.val ≥ 65) ↔ c.toNat ≥ 65 := by
      show (65 : UInt32) ≤ c.val ↔ 65 ≤ c.val.toNat
      rw [UInt32.le_def]
      rfl
    have e2 : (c.val ≤ 90) ↔ c.toNat ≤ 90 := by
      show c.val ≤ (90 : UInt32) ↔ c.val.toNat ≤ 90
      rw [UInt32.le_def]
      rfl
    simp only [Bool.and_eq_false_iff, decide_eq_false_iff_not, e1, e2]
    by_cases g : c.toNat ≥ 65
    · right
      intro g2
      exact h ⟨g, g2⟩
    · left
      exact g

/-- The lowercase form of a string, under case tables whose `ToLower` leaves every lowercase
form as it is: no character of it is changed by `ToLower`, and lowercasing it again changes
nothing. -/
theorem strings.ToLower_lower (U : unicode.Tables)
    (hidem : ∀ c, U.ToLower (U.ToLower c) = U.ToLower c) (s : String) :
    (∀ c ∈ (strings.ToLower U s).toList, U.ToLower c = c) ∧
    strings.ToLower U (strings.ToLower U s) = strings.ToLower U s := by
  constructor
  · intro c hc
    have hc' : c ∈ s.toList.map U.ToLower := hc
    obtain ⟨a, -, rfl⟩ := List.mem_map.mp hc'
    exact hidem a
  · show String.mk ((s.toList.map U.ToLower).map U.ToLower) = String.mk (s.toList.map U.ToLower)
    congr 1
    rw [List.map_map]
    apply List.map_congr_left
    intro a _
    exact hidem a

/-- The lowercase form of an ASCII character is not the character `Ä`. -/
theorem demo.toLower_ne (c : Char) (h : c ≠ Char.ofNat 196) : c.toLower ≠ Char.ofNat 196 := by
  by_cases hr : c.toNat ≥ 65 ∧ c.toNat ≤ 90
  · obtain ⟨n, hn⟩ : ∃ n : Nat, c.toNat = n := ⟨_, rfl⟩
    rw [hn] at hr
    have hc : c = Char.ofNat n := by
      rw [← hn]
      exact (Char.ofNat_toNat c).symm
    subst hc
    obtain ⟨h1, h2⟩ := hr
    interval_cases n <;> decide
  · have hl : c.toLower = c := by
      unfold Char.toLower
      simp only [hr, if_false]
    rw [hl]
    exact h

/-- The table `demo.unicode` leaves every lowercase form as it is. -/
theorem demo.unicode_idem (c : Char) :
    demo.unicode.ToLower (demo.unicode.ToLower c) = demo.unicode.ToLower c := by
  show (if (if c = Char.ofNat 196 then Char.ofNat 228 else c.toLower) = Char.ofNat 196 then
      Char.ofNat 228 else (if c = Char.ofNat 196 then Char.ofNat 228 else c.toLower).toLower) =
    (if c = Char.ofNat 196 then Char.ofNat 228 else c.toLower)
  by_cases h : c = Char.ofNat 196
  · rw [if_pos h]
    decide
  · rw [if_neg h, if_neg (demo.toLower_ne c h)]
    exact (strings.toLower_char c).2

/-- C16 (the claim fails): the character `ℂ` (U+2102) is an uppercase letter that has no
lowercase form.  For the NFT-edit message with the id `ℂX`, `BuildMsg` gives the id `ℂx`,
which still holds the uppercase letter `ℂ`. -/
theorem C16_counterexample :
    "ℂX".toList = [Char.ofNat 8450, Char.ofNat 88] ∧
    demo.unicode.IsUpper (Char.ofNat 8450) = true ∧
    demo.unicode.ToLower (Char.ofNat 8450) = Char.ofNat 8450 ∧
    ∃ d, nft.DocMsgNFTEdit.BuildMsg demo.unicode {} (.MsgEditNFT ⟨"bob", "ℂX", "Art", "u", "d"⟩) =
        some d ∧
      d.Id = "ℂx" ∧ ∃ c ∈ d.Id.toList, demo.unicode.IsUpper c = true := by
  refine ⟨by decide, by decide, by decide, _, rfl, by decide, by decide⟩

/-- C16 as amended: for every NFT-edit and every NFT-transfer message, `BuildMsg` gives a
payload whose `Id` and `Denom` are those of the message with every character replaced by its
lowercase form `unicode.ToLower`.  Under case tables that leave every lowercase form as it is,
no character of them is changed by lowercasing and they are their own lowercase forms.  `URI`
and `Data` are those of the message, and `Sender` (and `Recipient`, for a transfer) its address
strings. -/
theorem C16_nft_payload_lowercase (U : unicode.Tables)
    (hidem : ∀ c, U.ToLower (U.ToLower c) = U.ToLower c)
    (m : nft.DocMsgNFTEdit) (n : nft.DocMsgNFTTransfer)
    (e : itypes.MsgEditNFT) (t : itypes.MsgTransferNFT) :
    (∃ d, m.BuildMsg U (.MsgEditNFT e) = some d ∧
      d.Id.toList = e.Id.toList.map U.ToLower ∧ d.Denom.toList = e.Denom.toList.map U.ToLower ∧
      (∀ c ∈ d.Id.toList, U.ToLower c = c) ∧ (∀ c ∈ d.Denom.toList, U.ToLower c = c) ∧
      strings.ToLower U d.Id = d.Id ∧ strings.ToLower U d.Denom = d.Denom ∧
      d.URI = e.URI ∧ d.Data = e.Data ∧ d.Sender = e.Sender) ∧
    (∃ d, n.BuildMsg U (.MsgTransferNFT t) = some d ∧
      d.Id.toList = t.Id.toList.map U.ToLower ∧ d.Denom.toList = t.Denom.toList.map U.ToLower ∧
      (∀ c ∈ d.Id.toList, U.ToLower c = c) ∧ (∀ c ∈ d.Denom.toList, U.ToLower c = c) ∧
      strings.ToLower U d.Id = d.Id ∧ strings.ToLower U d.Denom = d.Denom ∧
      d.URI = t.URI ∧ d.Data = t.Data ∧ d.Sender = t.Sender ∧ d.Recipient = t.Recipient) :=
  ⟨⟨_, rfl, rfl, rfl, (strings.ToLower_lower U hidem e.Id).1,
      (strings.ToLower_lower U hidem e.Denom).1, (strings.ToLower_lower U hidem e.Id).2,
      (strings.ToLower_lower U hidem e.Denom).2, rfl, rfl, rfl⟩,
    ⟨_, rfl, rfl, rfl, (strings.ToLower_lower U hidem t.Id).1,
      (strings.ToLower_lower U hidem t.Denom).1, (strings.ToLower_lower U hidem t.Id).2,
      (strings.ToLower_lower U hidem t.Denom).2, rfl, rfl, rfl, rfl⟩⟩

/-- The amended C16 at an NFT edit with the id `ID1` and the denomination `ÄRT`: the payload
has the id `id1` and the denomination `ärt`. -/
theorem C16_nft_payload_lowercase_witness :
    "Ä".toList = [Char.ofNat 196] ∧ "ä".toList = [Char.ofNat 228] ∧
    ∃ d, nft.DocMsgNFTEdit.BuildMsg demo.unicode {}
        (.MsgEditNFT ⟨"bob", "ID1", "ÄRT", "u", "d"⟩) = some d ∧
      d.Id = "id1" ∧ d.Denom = "ärt" ∧ d.URI = "u" ∧ d.Data = "d" ∧ d.Sender = "bob" ∧
      strings.ToLower demo.unicode d.Denom = d.Denom := by
  refine ⟨by decide, by decide, ?_⟩
  obtain ⟨d, h, h1, h2, -, -, -, h3, h4, h5, h6⟩ :=
    (C16_nft_payload_lowercase demo.unicode demo.unicode_idem {} {}
      ⟨"bob", "ID1", "ÄRT", "u", "d"⟩ ⟨"bob", "carol", "Art", "ID1", "u", "d"⟩).1
  refine ⟨d, h, ?_, ?_, h4, h5, h6, h3⟩
  · have e : d.Id = String.mk d.Id.toList := rfl
    rw [e, h1]
    decide
  · have e : d.Denom = String.mk d.Denom.toList := rfl
    rw [e, h2]
    decide

/-- C17: on a record whose `Msgs` is empty and whose `Types` is in step with `Msgs`, as it is
in every record the handlers build, the NFT-edit handler returns a record with `Type_` the
NFT-edit type, `From` the sender, `To` empty and `Amount` empty, and the NFT-transfer handler
one with `Type_` the NFT-transfer type, `From` the sender, `To` the recipient and `Amount`
empty.  In both cases `Msgs` and `Types` have length 1 afterwards: the one entry of `Msgs` is
the type of the handler with the built payload, and the one entry of `Types` that type. -/
theorem C17_nft_handlers_set_summary (K : constant.Table) (U : unicode.Tables)
    (tx : document.CommonTx) (hm : tx.Msgs = []) (hstep : tx.Types.length = tx.Msgs.length) :
    (∀ (m : nft.DocMsgNFTEdit) (msg : itypes.MsgEditNFT),
      ∃ tx' d, m.HandleTxMsg K U (.MsgEditNFT msg) tx = some tx' ∧
        m.BuildMsg U (.MsgEditNFT msg) = some d ∧
        tx'.Type_ = K.TxTypeNFTEdit ∧ tx'.From = msg.Sender ∧ tx'.To = "" ∧ tx'.Amount = [] ∧
        tx'.Msgs.length = 1 ∧ tx'.Types.length = 1 ∧
        tx'.Msgs = [⟨K.TxTypeNFTEdit, .NFTEdit d⟩] ∧ tx'.Types = [K.TxTypeNFTEdit]) ∧
    (∀ (m : nft.DocMsgNFTTransfer) (msg : itypes.MsgTransferNFT),
      ∃ tx' d, m.HandleTxMsg K U (.MsgTransferNFT msg) tx = some tx' ∧
        m.BuildMsg U (.MsgTransferNFT msg) = some d ∧
        tx'.Type_ = K.TxTypeNFTTransfer ∧ tx'.From = msg.Sender ∧ tx'.To = msg.Recipient ∧
        tx'.Amount = [] ∧
        tx'.Msgs.length = 1 ∧ tx'.Types.length = 1 ∧
        tx'.Msgs = [⟨K.TxTypeNFTTransfer, .NFTTransfer d⟩] ∧
        tx'.Types = [K.TxTypeNFTTransfer]) := by
  have ht : tx.Types = [] := by
    rw [hm] at hstep
    exact List.length_eq_zero.mp hstep
  constructor
  · intro m msg
    simp only [nft.DocMsgNFTEdit.HandleTxMsg, nft.DocMsgNFTEdit.BuildMsg, hm, ht,
      List.nil_append, List.length_singleton, gt_iff_lt, lt_self_iff_false, if_false]
    exact ⟨_, _, rfl, rfl, rfl, rfl, rfl, rfl, rfl, rfl, rfl, rfl⟩
  · intro m msg
    simp only [nft.DocMsgNFTTransfer.HandleTxMsg, nft.DocMsgNFTTransfer.BuildMsg, hm, ht,
      List.nil_append, List.length_singleton, gt_iff_lt, lt_self_iff_false, if_false]
    exact ⟨_, _, rfl, rfl, rfl, rfl, rfl, rfl, rfl, rfl, rfl, rfl⟩

/-- C17 at the empty record: an NFT transfer from `bob` to `carol`, and an NFT edit by
`bob`. -/
theorem C17_nft_handlers_set_summary_witness :
    ({} : document.CommonTx).Msgs = [] ∧
    ({} : document.CommonTx).Types.length = ({} : document.CommonTx).Msgs.length ∧
    (∃ tx', nft.DocMsgNFTTransfer.HandleTxMsg demo.K demo.unicode {}
        (.MsgTransferNFT ⟨"bob", "carol", "Art", "ID1", "u", "d"⟩) {} = some tx' ∧
      tx'.Type_ = "NFTTransfer" ∧ tx'.From = "bob" ∧ tx'.To = "carol" ∧ tx'.Amount = [] ∧
      tx'.Msgs = [⟨"NFTTransfer", .NFTTransfer ⟨"bob", "carol", "u", "art", "id1", "d"⟩⟩] ∧
      tx'.Types = ["NFTTransfer"]) ∧
    (∃ tx', nft.DocMsgNFTEdit.HandleTxMsg demo.K demo.unicode {}
        (.MsgEditNFT ⟨"bob", "ID1", "Art", "u", "d"⟩) {} = some tx' ∧
      tx'.Type_ = "NFTEdit" ∧ tx'.From = "bob" ∧ tx'.To = "" ∧ tx'.Amount = [] ∧
      tx'.Msgs = [⟨"NFTEdit", .NFTEdit ⟨"bob", "id1", "art", "u", "d"⟩⟩] ∧
      tx'.Types = ["NFTEdit"]) := by
  refine ⟨rfl, rfl, ?_, ?_⟩
  · obtain ⟨tx', d, h, hd, h1, h2, h3, h4, -, -, h7, h8⟩ :=
      (C17_nft_handlers_set_summary demo.K demo.unicode {} rfl rfl).2 {}
        ⟨"bob", "carol", "Art", "ID1", "u", "d"⟩
    cases hd
    exact ⟨tx', h, h1, h2, h3, h4, h7.trans (by decide), h8⟩
  · obtain ⟨tx', d, h, hd, h1, h2, h3, h4, -, -, h7, h8⟩ :=
      (C17_nft_handlers_set_summary demo.K demo.unicode {} rfl rfl).1 {}
        ⟨"bob", "ID1", "Art", "u", "d"⟩
    cases hd
    exact ⟨tx', h, h1, h2, h3, h4, h7.trans (by decide), h8⟩

/-- A value `strconv.ParseInt` returns is in the range of `int64`. -/
theorem strconv.ParseInt_range {s : String} {v : Int} (hv : strconv.ParseInt s = .ok v) :
    -(2 ^ 63) ≤ v ∧ v < 2 ^ 63 := by
  unfold strconv.ParseInt at hv
  split at hv
  rename_i neg digits _
  split at hv
  · cases hv
  · split at hv
    · cases hv
    · rename_i n _
      split at hv
      · split at hv
        · cases hv
          constructor <;> omega
        · cases hv
      · split at hv
        · cases hv
          constructor <;> omega
        · cases hv

/-- C18 (the claim fails): the one attribute with the proposal-id key has the value `-1`, which
parses as the base-10 integer -1; the result is 18446744073709551615 with no error, not -1. -/
theorem C18_counterexample :
    strconv.ParseInt "-1" = .ok (-1) ∧
    helper.getProposalIdFromTags demo.K [⟨"proposal-id", "-1"⟩] =
      (18446744073709551615, none) ∧
    ((helper.getProposalIdFromTags demo.K [⟨"proposal-id", "-1"⟩]).1 : Int) ≠ -1 := by
  refine ⟨rfl, rfl, ?_⟩
  have h : helper.getProposalIdFromTags demo.K [⟨"proposal-id", "-1"⟩] =
      (18446744073709551615, none) := rfl
  rw [h]
  decide

/-- C18 as amended: for every attribute list, `getProposalIdFromTags` returns `(0, no error)`
when no attribute has the proposal-id key.  Otherwise the first attribute with that key decides
alone, whatever follows it: when its value parses as a base-10 integer `v` the result is `v`
converted to `uint64` with no error, which is `v` itself when `v` is not negative and
`v + 2 ^ 64` when it is; when the value does not parse the result is 0 with the error of the
parse. -/
theorem C18_first_proposal_tag_decides (K : constant.Table) (tags : List itypes.TmKVPair) :
    ((∀ tag ∈ tags, tag.Key ≠ K.TagGovProposalID) →
      helper.getProposalIdFromTags K tags = (0, none)) ∧
    (∀ (pre post : List itypes.TmKVPair) (tag : itypes.TmKVPair),
      tags = pre ++ tag :: post → (∀ x ∈ pre, x.Key ≠ K.TagGovProposalID) →
      tag.Key = K.TagGovProposalID →
      (∀ v, strconv.ParseInt tag.Value = .ok v →
        helper.getProposalIdFromTags K tags = ((v % 2 ^ 64).toNat, none) ∧
        (0 ≤ v → ((helper.getProposalIdFromTags K tags).1 : Int) = v) ∧
        (v < 0 → ((helper.getProposalIdFromTags K tags).1 : Int) = v + 2 ^ 64)) ∧
      (∀ err, strconv.ParseInt tag.Value = .error err →
        helper.getProposalIdFromTags K tags = (0, some err))) := by
  constructor
  · intro h
    induction tags with
    | nil => rfl
    | cons t ts ih =>
      have ht : ¬ t.Key = K.TagGovProposalID := h t (List.mem_cons_self _ _)
      simp only [helper.getProposalIdFromTags, if_neg ht]
      exact ih fun x hx => h x (List.mem_cons_of_mem _ hx)
  · intro pre post tag htags hpre hkey
    subst htags
    have hskip : helper.getProposalIdFromTags K (pre ++ tag :: post) =
        helper.getProposalIdFromTags K (tag :: post) := by
      induction pre with
      | nil => rfl
      | cons t ts ih =>
        have ht : ¬ t.Key = K.TagGovProposalID := hpre t (List.mem_cons_self _ _)
        simp only [List.cons_append, helper.getProposalIdFromTags, if_neg ht]
        exact ih fun x hx => hpre x (List.mem_cons_of_mem _ hx)
    rw [hskip]
    simp only [helper.getProposalIdFromTags, if_pos hkey]
    constructor
    · intro v hv
      have hr := strconv.ParseInt_range hv
      rw [hv]
      have hnn : ((v % 2 ^ 64).toNat : Int) = v % 2 ^ 64 :=
        Int.toNat_of_nonneg (Int.emod_nonneg _ (by norm_num))
      refine ⟨rfl, ?_, ?_⟩
      · intro h0
        show (((v % 2 ^ 64).toNat : Nat) : Int) = v
        rw [hnn]
        omega
      · intro h0
        show (((v % 2 ^ 64).toNat : Nat) : Int) = v + 2 ^ 64
        rw [hnn]
        omega
    · intro err he
      rw [he]

/-- C19: the evidence dispatcher hands a message whose type string is the submit-evidence type
to the submit-evidence handler and returns its record with `ok = true`; for every other message
it returns the input record itself with `ok = false`.  So whenever it returns, `ok` is true
exactly when the type string is the submit-evidence type, and with `ok = false` the record is
the input record. -/
theorem C19_evidence_dispatch (env : evidence.Env) (msg : sdk.Msg) (tx : document.CommonTx) :
    (env.Type_ msg = env.MsgSubmitEvidenceType →
      evidence.HandleTxMsg env msg tx =
        (env.DocMsgSubmitEvidenceHandleTxMsg msg tx).map fun tx' => (tx', true)) ∧
    (env.Type_ msg ≠ env.MsgSubmitEvidenceType →
      evidence.HandleTxMsg env msg tx = some (tx, false)) ∧
    (∀ r, evidence.HandleTxMsg env msg tx = some r →
      (r.2 = true ↔ env.Type_ msg = env.MsgSubmitEvidenceType) ∧ (r.2 = false → r.1 = tx)) := by
  have h1 : env.Type_ msg = env.MsgSubmitEvidenceType →
      evidence.HandleTxMsg env msg tx =
        (env.DocMsgSubmitEvidenceHandleTxMsg msg tx).map fun tx' => (tx', true) := by
    intro h
    simp only [evidence.HandleTxMsg, if_pos h]
  have h2 : env.Type_ msg ≠ env.MsgSubmitEvidenceType →
      evidence.HandleTxMsg env msg tx = some (tx, false) := by
    intro h
    simp only [evidence.HandleTxMsg, if_neg h]
  refine ⟨h1, h2, ?_⟩
  intro r hr
  by_cases h : env.Type_ msg = env.MsgSubmitEvidenceType
  · rw [h1 h] at hr
    cases hh : env.DocMsgSubmitEvidenceHandleTxMsg msg tx with
    | none => rw [hh] at hr; cases hr
    | some tx' =>
      rw [hh] at hr
      cases hr
      simp [h]
  · rw [h2 h] at hr
    cases hr
    simp [h]

/-- C19 at a message of another type and at a submit-evidence message. -/
theorem C19_evidence_dispatch_witness :
    evidence.HandleTxMsg demo.evidenceEnv (.other "transfer") demo.issuedTx =
      some (demo.issuedTx, false) ∧
    evidence.HandleTxMsg demo.evidenceEnv (.other "submit_evidence") demo.issuedTx =
      some ({ demo.issuedTx with Type_ := "SubmitEvidence" }, true) :=
  ⟨(C19_evidence_dispatch demo.evidenceEnv (.other "transfer") demo.issuedTx).2.1 (by decide),
    (C19_evidence_dispatch demo.evidenceEnv (.other "submit_evidence") demo.issuedTx).1 rfl⟩

/-- C11 at the envelopes `issueTwiceTx` and `issueOnceTx`, which share the first message and
differ in everything else: both records have the type `IssueToken`, the sender `alice`, no
recipient and no amount. -/
theorem C11_summary_from_first_message_witness :
    demo.env2.Unmarshal [2] = .ok demo.issueTwiceTx ∧
    demo.env2.Unmarshal [3] = .ok demo.issueOnceTx ∧
    demo.issueTwiceTx.Msgs ≠ demo.issueOnceTx.Msgs ∧
    (helper.ParseTx demo.K demo.env2 [2] ⟨2, 0, [[2]]⟩).map
        (fun tx => (tx.Type_, tx.From, tx.To, tx.Amount)) =
      (helper.ParseTx demo.K demo.env2 [3] ⟨3, 5, [[3]]⟩).map
        (fun tx => (tx.Type_, tx.From, tx.To, tx.Amount)) ∧
    (helper.ParseTx demo.K demo.env2 [3] ⟨3, 5, [[3]]⟩).map
        (fun tx => (tx.Type_, tx.From, tx.To, tx.Amount)) =
      some ("IssueToken", "alice", "", []) :=
  ⟨rfl, rfl, by decide,
    C11_summary_from_first_message demo.K demo.env2 [2] [3] ⟨2, 0, [[2]]⟩ ⟨3, 5, [[3]]⟩
      demo.issueTwiceTx demo.issueOnceTx (.AssetIssueToken ⟨"alice", "a"⟩)
      [.AssetIssueToken ⟨"bob", "b"⟩] [] rfl rfl rfl rfl rfl,
    rfl⟩

/-- C12 at a store with two records: the update with the resolved record of the hash `07`
rewrites the seven fields of the first record and leaves the second as it is. -/
theorem C12_update_sets_seven_fields_witness :
    cron.UpdateUnknowTxs { docs := [demo.pendingDoc, demo.otherDoc] } [demo.resolvedTx] =
      { docs :=
          [{ demo.pendingDoc with
              Status := "success", Log := "ok", GasWanted := 30, ActualFee := ⟨"stake", 60⟩,
              Tags := [("action", "unjail")] },
            demo.otherDoc] } := by
  rw [C12_update_sets_seven_fields { docs := [demo.pendingDoc, demo.otherDoc] } demo.resolvedTx
    rfl (by decide)]
  rfl

/-- C18 at three attributes: the first proposal-id attribute has the value `12`, a later one
does not parse, and the result is 12 with no error. -/
theorem C18_first_proposal_tag_decides_witness :
    strconv.ParseInt "12" = .ok 12 ∧
    helper.getProposalIdFromTags demo.K
      [⟨"action", "submit"⟩, ⟨"proposal-id", "12"⟩, ⟨"proposal-id", "zz"⟩] = (12, none) :=
  ⟨rfl,
    (((C18_first_proposal_tag_decides demo.K
      [⟨"action", "submit"⟩, ⟨"proposal-id", "12"⟩, ⟨"proposal-id", "zz"⟩]).2
      [⟨"action", "submit"⟩] [⟨"proposal-id", "zz"⟩] ⟨"proposal-id", "12"⟩ rfl (by decide)
      rfl).1 12 rfl).1⟩

/-- C14 at three attributes, two of them with the key `a`: the map holds the later value for
`a` and one entry per key. -/
theorem C14_parseTags_last_write_wins_witness :
    helper.parseTags ⟨0, "", 0, 0, [⟨"a", "1"⟩, ⟨"b", "2"⟩, ⟨"a", "3"⟩]⟩ =
      [("a", "3"), ("b", "2")] ∧
    helper.mapGet (helper.parseTags ⟨0, "", 0, 0, [⟨"a", "1"⟩, ⟨"b", "2"⟩, ⟨"a", "3"⟩]⟩) "a" =
      some "3" :=
  ⟨by decide,
    ((C14_parseTags_last_write_wins ⟨0, "", 0, 0, [⟨"a", "1"⟩, ⟨"b", "2"⟩, ⟨"a", "3"⟩]⟩).1
      "a").trans (by decide)⟩

/-! ## Properties of reconciled records -/

/-- The fee fields of a record `ParseTx` builds from an envelope with a message: the hash, the
fee, the status, the capped gas used, the gas used of the result in `GasWanted`, the gas price
from the fee alone, and the actual fee as their product. -/
theorem helper.ParseTx_fee_fields {K : constant.Table} {env : helper.Env} {txBytes : itypes.Tx}
    {block : itypes.Block} {authTx : itypes.StdTx} {tx : document.CommonTx}
    (hdec : env.Unmarshal txBytes = .ok authTx) (hmsgs : authTx.Msgs ≠ [])
    (h : helper.ParseTx K env txBytes block = some tx) :
    tx.TxHash = helper.BuildHex (env.Hash txBytes) ∧ tx.Fee = authTx.Fee ∧
    tx.Status = (helper.QueryTxResult env (env.Hash txBytes)).1 ∧
    tx.GasUsed =
      helper.Min (helper.QueryTxResult env (env.Hash txBytes)).2.1.GasUsed authTx.Fee.Gas ∧
    tx.GasWanted = (helper.QueryTxResult env (env.Hash txBytes)).2.1.GasUsed ∧
    tx.GasPrice =
      (match authTx.Fee.Amount with
        | c :: _ => c.Amount / (authTx.Fee.Gas : ℚ)
        | [] => 0) ∧
    tx.ActualFee.Amount = (tx.GasUsed : ℚ) * tx.GasPrice := by
  unfold helper.ParseTx at h
  rw [hdec] at h
  obtain ⟨msg, rest, hm⟩ := List.exists_cons_of_ne_nil hmsgs
  simp only [hm] at h
  obtain ⟨-, -, h3, h4, -, h6, -, -, h9, h10, h11, h12, -⟩ := helper.dispatch_keeps h
  refine ⟨h3, h4, h6, h9, h10, ?_, ?_⟩
  · rw [h11]
    cases authTx.Fee.Amount <;> rfl
  · rw [h12, h9, h11]
    cases authTx.Fee.Amount
    · simp
    · rfl

/-- A record `ParseTx` returns with status `unknown` comes from an envelope with a message whose
result query failed, so the result it was built from is the zero value. -/
theorem helper.ParseTx_unknown {K : constant.Table} {env : helper.Env} {txBytes : itypes.Tx}
    {block : itypes.Block} {tx : document.CommonTx}
    (h : helper.ParseTx K env txBytes block = some tx) (hs : tx.Status = "unknown") :
    ∃ authTx, env.Unmarshal txBytes = .ok authTx ∧ authTx.Msgs ≠ [] ∧
      (helper.QueryTxResult env (env.Hash txBytes)).2.1 = ⟨0, "", 0, 0, []⟩ := by
  cases hdec : env.Unmarshal txBytes with
  | error e =>
    unfold helper.ParseTx at h
    rw [hdec] at h
    cases h
    exact absurd hs (by decide)
  | ok authTx =>
    have hne : authTx.Msgs ≠ [] := by
      intro hm
      unfold helper.ParseTx at h
      rw [hdec] at h
      simp only [hm] at h
      cases h
      exact absurd hs (by decide)
    refine ⟨authTx, rfl, hne, ?_⟩
    have hst := (helper.ParseTx_fee_fields hdec hne h).2.2.1
    rw [hs] at hst
    unfold helper.QueryTxResult at hst ⊢
    cases hq : env.query.Tx (env.Hash txBytes) with
    | error e => rfl
    | ok res =>
      rw [hq] at hst
      simp only at hst
      split at hst
      · exact absurd hst (by decide)
      · exact absurd hst (by decide)

/-- The record `ParseTx` gives for the transaction `[7]` while the result query fails has the
hash, the status and the fee fields of `demo.pendingDoc`. -/
theorem demo.ParseTx_pending :
    ∃ t, helper.ParseTx demo.K demo.pending [7] ⟨7, 0, [[7]]⟩ = some t ∧
      t.TxHash = demo.pendingDoc.TxHash ∧ t.Status = "unknown" ∧
      t.Fee = demo.pendingDoc.Fee ∧ t.GasUsed = demo.pendingDoc.GasUsed ∧
      t.GasPrice = demo.pendingDoc.GasPrice ∧ t.ActualFee = demo.pendingDoc.ActualFee := by
  refine ⟨_, rfl, by decide, by decide, by decide, by decide, ?_, ?_⟩
  · simp [demo.pending, demo.down, demo.Unmarshal, demo.unjailTx, helper.QueryTxResult,
      helper.Min, demo.pendingDoc]
    norm_num
  · simp [demo.pending, demo.down, demo.Unmarshal, demo.unjailTx, helper.QueryTxResult,
      helper.Min, demo.pendingDoc]

/-- C20 (the claim fails): the transaction `[7]` with the fee 100 stake and the gas limit 50.
While its result query fails `ParseTx` gives the fee fields of `demo.pendingDoc`: gas used 0,
gas price 2, actual fee 0, which satisfy the invariant.  Once the node answers with gas used
30, `doWork` updates the stored record: the actual fee becomes 60, while `GasUsed` stays 0 and
the gas price 2, so the actual fee 60 is not `GasUsed * GasPrice = 0`. -/
theorem C20_counterexample :
    (∃ t, helper.ParseTx demo.K demo.pending [7] ⟨7, 0, [[7]]⟩ = some t ∧
      t.TxHash = demo.pendingDoc.TxHash ∧ t.Status = "unknown" ∧
      t.Fee = demo.pendingDoc.Fee ∧ t.GasUsed = demo.pendingDoc.GasUsed ∧
      t.GasPrice = demo.pendingDoc.GasPrice ∧ t.ActualFee = demo.pendingDoc.ActualFee) ∧
    demo.pendingDoc.ActualFee.Amount =
      (demo.pendingDoc.GasUsed : ℚ) * demo.pendingDoc.GasPrice ∧
    0 < demo.pendingDoc.Fee.Gas ∧
    (∃ d, (cron.doWork demo.K (demo.env demo.up) { docs := [demo.pendingDoc] }
        [demo.pendingDoc]).docs = [d] ∧
      d.TxHash = "07" ∧ d.Status = "success" ∧ d.GasUsed = 0 ∧
      d.GasPrice = 2 ∧ d.ActualFee = ⟨"stake", 60⟩ ∧
      d.ActualFee.Amount ≠ (d.GasUsed : ℚ) * d.GasPrice) := by
  refine ⟨demo.ParseTx_pending, ?_, by decide,
    ⟨_, rfl, by decide, by decide, by decide, ?_, ?_, ?_⟩⟩
  · norm_num [demo.pendingDoc]
  · simp [store.setFields, demo.pendingDoc]
  · simp [store.setFields, demo.env, demo.up, demo.Unmarshal, demo.unjailTx,
      helper.QueryTxResult, helper.Min]
    norm_num
  · simp [store.setFields, demo.env, demo.up, demo.Unmarshal, demo.unjailTx,
      helper.QueryTxResult, helper.Min, demo.pendingDoc]

/-- The function `helper.Min` is the minimum of two integers. -/
theorem helper.Min_eq_min (a b : Int) : helper.Min a b = min a b := by
  unfold helper.Min
  split <;> omega

/-- One update on a reachable store whose records have distinct `tx_hash`: the records after
it. -/
theorem cron.UpdateUnknowTxs_single (c : store.Collection) (t : document.CommonTx)
    (hf : c.fault = none) (hnd : (c.docs.map fun d => d.TxHash).Nodup) :
    (cron.UpdateUnknowTxs c [t]).docs =
      c.docs.map fun r => if r.TxHash = t.TxHash then store.setFields r t else r := by
  have h := store.updateFirst_map t c.docs hnd
  simp only [cron.UpdateUnknowTxs, List.foldl_cons, List.foldl_nil, store.Update, hf]
  cases hu : store.updateFirst t c.docs with
  | none =>
    rw [hu] at h
    exact h
  | some docs' =>
    rw [hu] at h
    exact h

/-- C20 as amended: a record `d` stored with the hash, the fee, the gas used and the gas price
that `ParseTx` gave while the result query failed (status `unknown`), with a positive gas limit
in the fee, on a reachable store with distinct hashes; and the record `t1` that `ParseTx` gives
for the same transaction once the query is answered by `q`.  After `UpdateUnknowTxs` with `t1`
the stored record has the status and the actual fee of `t1`, and the actual fee is
`g * GasPrice`, where `g` is the gas used of `t1`, the gas used of the result capped at the gas
limit, and `GasPrice` is the stored gas price, which is unchanged.  The stored `GasUsed` is not
written and keeps the value 0 of the first write, so the actual fee is `GasUsed * GasPrice` over
the stored fields only when it is 0. -/
theorem C20_actual_fee_after_update (K : constant.Table) (env : helper.Env) (q : helper.Client)
    (txBytes : itypes.Tx) (block0 block1 : itypes.Block) (t0 t1 : document.CommonTx)
    (c : store.Collection) (d : cron.CommonTx)
    (h0 : helper.ParseTx K env txBytes block0 = some t0) (hs : t0.Status = "unknown")
    (h1 : helper.ParseTx K { env with query := q } txBytes block1 = some t1)
    (hf : c.fault = none) (hnd : (c.docs.map fun d => d.TxHash).Nodup) (hd : d ∈ c.docs)
    (hstored : d.TxHash = t0.TxHash ∧ d.Fee = t0.Fee ∧ d.GasUsed = t0.GasUsed ∧
      d.GasPrice = t0.GasPrice)
    (hgas : 0 < d.Fee.Gas) :
    ∃ d' ∈ (cron.UpdateUnknowTxs c [t1]).docs,
      d'.TxHash = d.TxHash ∧ d'.Status = t1.Status ∧ d'.ActualFee = t1.ActualFee ∧
      t1.GasUsed =
        min (helper.QueryTxResult { env with query := q } (env.Hash txBytes)).2.1.GasUsed
          d'.Fee.Gas ∧
      d'.ActualFee.Amount = (t1.GasUsed : ℚ) * d'.GasPrice ∧
      d'.GasUsed = d.GasUsed ∧ d'.GasUsed = 0 ∧ d'.GasPrice = d.GasPrice ∧
      (d'.ActualFee.Amount = (d'.GasUsed : ℚ) * d'.GasPrice ↔ d'.ActualFee.Amount = 0) := by
  obtain ⟨authTx, hdec, hne, hres0⟩ := helper.ParseTx_unknown h0 hs
  obtain ⟨a1, a2, -, a4, -, a6, -⟩ := helper.ParseTx_fee_fields hdec hne h0
  have hdec1 : ({ env with query := q } : helper.Env).Unmarshal txBytes = .ok authTx := hdec
  obtain ⟨b1, -, -, b4, -, b6, b7⟩ := helper.ParseTx_fee_fields hdec1 hne h1
  obtain ⟨s1, s2, s3, s4⟩ := hstored
  have hh : d.TxHash = t1.TxHash := by
    rw [s1, a1, b1]
  have hfee : d.Fee = authTx.Fee := s2.trans a2
  have hused : d.GasUsed = 0 := by
    rw [s3, a4, hres0, ← hfee]
    show helper.Min 0 d.Fee.Gas = 0
    unfold helper.Min
    rw [if_pos hgas]
  have hamount : t1.ActualFee.Amount = (t1.GasUsed : ℚ) * d.GasPrice := by
    rw [b7, s4, a6, b6]
  refine ⟨store.setFields d t1, ?_, rfl, rfl, rfl, ?_, hamount, rfl, hused, rfl, ?_⟩
  · rw [cron.UpdateUnknowTxs_single c t1 hf hnd]
    refine List.mem_map.mpr ⟨d, hd, ?_⟩
    rw [if_pos hh]
  · show t1.GasUsed = min _ d.Fee.Gas
    rw [b4, helper.Min_eq_min, hfee]
  · show t1.ActualFee.Amount = (d.GasUsed : ℚ) * d.GasPrice ↔ t1.ActualFee.Amount = 0
    rw [hused]
    simp

/-- The amended C20 at the transaction `[7]`, stored as `demo.pendingDoc` next to another
record, once the node answers with gas used 30: the resolved record has gas used 30, and the
stored record has the actual fee `30 * 2 = 60`, and still `GasUsed` 0 and the gas price 2. -/
theorem C20_actual_fee_after_update_witness :
    0 < demo.pendingDoc.Fee.Gas ∧
    ∃ t1, helper.ParseTx demo.K { demo.pending with query := demo.up } [7] ⟨7, 0, [[7]]⟩ =
        some t1 ∧ t1.GasUsed = 30 ∧
      ∃ d' ∈ (cron.UpdateUnknowTxs { docs := [demo.pendingDoc, demo.otherDoc] } [t1]).docs,
        d'.TxHash = "07" ∧ d'.ActualFee.Amount = 60 ∧ d'.GasUsed = 0 ∧ d'.GasPrice = 2 := by
  refine ⟨by decide, ?_⟩
  obtain ⟨t0, h0, e1, e2, e3, e4, e5, -⟩ := demo.ParseTx_pending
  obtain ⟨t1, h1⟩ : ∃ t, helper.ParseTx demo.K { demo.pending with query := demo.up } [7]
      ⟨7, 0, [[7]]⟩ = some t := ⟨_, rfl⟩
  have hg : t1.GasUsed = 30 := by
    have e : (helper.ParseTx demo.K { demo.pending with query := demo.up } [7]
        ⟨7, 0, [[7]]⟩).map (fun t => t.GasUsed) = some 30 := by decide
    rw [h1] at e
    exact Option.some.inj e
  obtain ⟨d', hd', g1, -, -, -, g5, -, g7, g8, -⟩ :=
    C20_actual_fee_after_update demo.K demo.pending demo.up [7] ⟨7, 0, [[7]]⟩ ⟨7, 0, [[7]]⟩
      t0 t1 { docs := [demo.pendingDoc, demo.otherDoc] } demo.pendingDoc h0 e2 h1 rfl
      (by decide) (by simp) ⟨e1.symm, e3.symm, e4.symm, e5.symm⟩ (by decide)
  refine ⟨t1, h1, hg, d', hd', g1, ?_, g7, g8⟩
  rw [g5, hg, g8]
  norm_num [demo.pendingDoc]

/-! ## The scan on a store that cannot be reached -/

/-- The error log is the log of the loop of `fn_update`: the two end together. -/
theorem cron.fn_update_errors_isSome {σ : Type}
    (page : σ → Nat → Nat → (Nat × Option String) × σ) :
    ∀ (fuel : Nat) (s : σ) (skip : Nat),
      (cron.fn_update_errors page fuel s skip).isSome = (cron.fn_update page fuel s skip).isSome
  | 0, _, _ => rfl
  | fuel + 1, s, skip => by
    have ih := cron.fn_update_errors_isSome page fuel (page s skip 20).2
      (skip + (page s skip 20).1.1)
    simp only [cron.fn_update_errors, cron.fn_update]
    by_cases h : (page s skip 20).1.1 < 20
    · simp only [if_pos h, Option.isSome_some]
    · simp only [if_neg h, Option.isSome_map', ih]

/-- C21: while the store cannot be reached, `UpdateUnknownTxsByPage` returns the count 0 with
the error of the store and leaves the store as it is: no record is fetched and none is
processed.  The loop of `fn_update`, at whatever `skip` it stands and whatever the store holds,
then runs this one iteration only: it logs the error and ends with the store unchanged, and
`skip` is not advanced. -/
theorem C21_store_failure_ends_scan (K : constant.Table) (env : helper.Env)
    (c : store.Collection) (skip limit fuel : Nat) (e : String) (hf : c.fault = some e) :
    cron.UpdateUnknownTxsByPage K env c skip limit = ((0, some e), c) ∧
    cron.fn_update (cron.UpdateUnknownTxsByPage K env) (fuel + 1) c skip =
      some ([(skip, 0)], c) ∧
    cron.fn_update_errors (cron.UpdateUnknownTxsByPage K env) (fuel + 1) c skip = some [e] := by
  have hp := cron.UpdateUnknownTxsByPage_fault K env c skip 20 e hf
  refine ⟨cron.UpdateUnknownTxsByPage_fault K env c skip limit e hf, ?_, ?_⟩
  · rw [cron.fn_update_succ, hp]
    rfl
  · simp only [cron.fn_update_errors, hp]
    rfl

/-- C21 at a store with 45 records with status `unknown` that cannot be reached, in the third
iteration of a scan: the loop ends there with the one trace entry `(40, 0)`, the error in the
log, and the store as it was. -/
theorem C21_store_failure_ends_scan_witness :
    demo.unreachable.fault = some "no reachable servers" ∧
    (store.unknownTxs demo.unreachable.docs).length = 45 ∧
    cron.UpdateUnknownTxsByPage demo.K (demo.env demo.up) demo.unreachable 40 20 =
      ((0, some "no reachable servers"), demo.unreachable) ∧
    cron.fn_update (cron.UpdateUnknownTxsByPage demo.K (demo.env demo.up)) 3
      demo.unreachable 40 = some ([(40, 0)], demo.unreachable) ∧
    cron.fn_update_errors (cron.UpdateUnknownTxsByPage demo.K (demo.env demo.up)) 3
      demo.unreachable 40 = some ["no reachable servers"] :=
  ⟨rfl, by decide,
    C21_store_failure_ends_scan demo.K (demo.env demo.up) demo.unreachable 40 20 2
      "no reachable servers" rfl⟩

/-! ## The record of an unrecognised message -/

/-- The signers `ParseTx` collects: one per signature of the envelope, in order, with the hex
form of its address and the bech32 form when the conversion succeeds, the empty string when it
fails. -/
theorem helper.signersOf_eq (env : helper.Env) (sigs : List itypes.StdSignature) :
    helper.signersOf env sigs =
      sigs.map fun signature =>
        { AddrHex := signature.AddrHex,
          AddrBech32 :=
            match env.ConvertAccountAddrFromHexToBech32 signature.AddrHex with
            | .ok addrBech32 => addrBech32
            | .error _ => "" } := by
  unfold helper.signersOf
  apply List.map_congr_left
  intro signature _
  cases env.ConvertAccountAddrFromHexToBech32 signature.AddrHex <;> rfl

/-- C15: for every envelope that decodes with at least one message and whose first message is
none of the variants the type switch of `ParseTx` names (an NFT edit, an NFT transfer, or a
variant outside the source files), `ParseTx` returns a record: `Msgs` is empty, `Type_`, `From`,
`To` and `Amount` have their zero values, and the other fields are filled from the block, the
envelope and the result.  The height and the time are those of the block, the hash the
uppercase hex form of the transaction hash, the fee and the memo those of the envelope; the
status, the code, the log and the tags are those of the result query, the gas used is the gas
used of the result capped at the gas limit; and there is one signer per signature, in order,
with the hex address and, when the conversion succeeds, the bech32 address. -/
theorem C15_unknown_variant_gives_bare_record (K : constant.Table) (env : helper.Env)
    (txBytes : itypes.Tx) (block : itypes.Block) (authTx : itypes.StdTx) (msg : sdk.Msg)
    (rest : List sdk.Msg) (hdec : env.Unmarshal txBytes = .ok authTx)
    (hmsgs : authTx.Msgs = msg :: rest)
    (hmsg : (∃ m, msg = .MsgEditNFT m) ∨ (∃ m, msg = .MsgTransferNFT m) ∨
      (∃ t, msg = .other t)) :
    ∃ tx, helper.ParseTx K env txBytes block = some tx ∧
      tx.Msgs = [] ∧ tx.Type_ = "" ∧ tx.From = "" ∧ tx.To = "" ∧ tx.Amount = [] ∧
      tx.Msg = none ∧ tx.Types = [] ∧ tx.Addrs = [] ∧
      tx.Height = block.Height ∧ tx.Time = block.Time ∧
      tx.TxHash = helper.BuildHex (env.Hash txBytes) ∧
      tx.Fee = authTx.Fee ∧ tx.Memo = authTx.Memo ∧
      tx.Status = (helper.QueryTxResult env (env.Hash txBytes)).1 ∧
      tx.Code = (helper.QueryTxResult env (env.Hash txBytes)).2.1.Code ∧
      tx.Log = (helper.QueryTxResult env (env.Hash txBytes)).2.1.Log ∧
      tx.GasUsed =
        min (helper.QueryTxResult env (env.Hash txBytes)).2.1.GasUsed authTx.Fee.Gas ∧
      tx.GasWanted = (helper.QueryTxResult env (env.Hash txBytes)).2.1.GasUsed ∧
      tx.Tags = helper.parseTags (helper.QueryTxResult env (env.Hash txBytes)).2.1 ∧
      tx.Signers =
        authTx.Signatures.map (fun signature =>
          { AddrHex := signature.AddrHex,
            AddrBech32 :=
              match env.ConvertAccountAddrFromHexToBech32 signature.AddrHex with
              | .ok addrBech32 => addrBech32
              | .error _ => "" }) ∧
      tx.Signers.length = authTx.Signatures.length := by
  unfold helper.ParseTx
  rw [hdec]
  simp only [hmsgs]
  rcases hmsg with ⟨m, rfl⟩ | ⟨m, rfl⟩ | ⟨t, rfl⟩ <;>
    exact ⟨_, rfl, rfl, rfl, rfl, rfl, rfl, rfl, rfl, rfl, rfl, rfl, rfl, rfl, rfl, rfl, rfl,
      rfl, helper.Min_eq_min _ _, rfl, rfl, helper.signersOf_eq env authTx.Signatures,
      by simp [helper.signersOf]⟩

/-- C15 at the envelope `foreignTx`, which has two signatures, in the block of height 4 and
time 9, on a node that answers with the code 3, the log `done`, gas used 30 and three
attributes: every field of the record. -/
theorem C15_unknown_variant_gives_bare_record_witness :
    demo.env3.Unmarshal [4] = .ok demo.foreignTx ∧
    ∃ tx, helper.ParseTx demo.K demo.env3 [4] ⟨4, 9, [[4]]⟩ = some tx ∧
      tx.Msgs = [] ∧ tx.Type_ = "" ∧ tx.From = "" ∧ tx.To = "" ∧ tx.Amount = [] ∧
      tx.Height = 4 ∧ tx.Time = 9 ∧ tx.TxHash = "04" ∧
      tx.Fee = ⟨[⟨"stake", 100⟩], 50⟩ ∧ tx.Memo = "m" ∧
      tx.Status = "fail" ∧ tx.Code = 3 ∧ tx.Log = "done" ∧ tx.GasUsed = 30 ∧
      tx.GasWanted = 30 ∧
      tx.Tags = [("action", "foreign"), ("module", "bank")] ∧
      tx.Signers = [⟨"AA", "iaaAA"⟩, ⟨"BB", ""⟩] := by
  refine ⟨rfl, ?_⟩
  obtain ⟨tx, h, h1, h2, h3, h4, h5, -, -, -, h6, h7, h8, h9, h10, h11, h12, h13, h14, h15,
      h16, h17, -⟩ :=
    C15_unknown_variant_gives_bare_record demo.K demo.env3 [4] ⟨4, 9, [[4]]⟩ demo.foreignTx
      (.other "foreign") [] rfl rfl (Or.inr (Or.inr ⟨_, rfl⟩))
  refine ⟨tx, h, h1, h2, h3, h4, h5, h6, h7, h8.trans ?_, h9.trans ?_, h10, h11.trans ?_,
    h12.trans ?_, h13.trans ?_, h14.trans ?_, h15.trans ?_, h16.trans ?_, h17.trans ?_⟩
  all_goals decide

/-! ## A transaction whose result query fails -/

/-- The uppercase hexadecimal digits of two different values below 16 are different. -/
theorem hex.upperDigit_inj :
    ∀ x < 16, ∀ y < 16, (hex.digit x).toUpper = (hex.digit y).toUpper → x = y := by
  decide

/-- The characters of `BuildHex`: two uppercase hexadecimal digits per byte. -/
theorem helper.BuildHex_toList (bytes : List Nat) :
    (helper.BuildHex bytes).toList =
      bytes.flatMap fun b => [(hex.digit (b % 256 / 16)).toUpper, (hex.digit (b % 16)).toUpper] := by
  show (bytes.flatMap fun b => [hex.digit (b % 256 / 16), hex.digit (b % 16)]).map Char.toUpper = _
  induction bytes with
  | nil => rfl
  | cons b bs ih =>
    simp only [List.flatMap_cons, List.map_append, ih, List.map_cons, List.map_nil]

/-- On byte strings `BuildHex` is injective. -/
theorem helper.BuildHex_inj :
    ∀ a b : List Nat, (∀ x ∈ a, x < 256) → (∀ x ∈ b, x < 256) →
      helper.BuildHex a = helper.BuildHex b → a = b
  | [], [], _, _, _ => rfl
  | [], y :: ys, _, _, h => by
    have h2 := congrArg String.toList h
    rw [helper.BuildHex_toList, helper.BuildHex_toList] at h2
    simp at h2
  | x :: xs, [], _, _, h => by
    have h2 := congrArg String.toList h
    rw [helper.BuildHex_toList, helper.BuildHex_toList] at h2
    simp at h2
  | x :: xs, y :: ys, ha, hb, h => by
    have h2 := congrArg String.toList h
    rw [helper.BuildHex_toList, helper.BuildHex_toList] at h2
    simp only [List.flatMap_cons, List.cons_append, List.nil_append, List.cons.injEq] at h2
    obtain ⟨e1, e2, e3⟩ := h2
    have hx : x < 256 := ha x (List.mem_cons_self _ _)
    have hy : y < 256 := hb y (List.mem_cons_self _ _)
    have d1 := hex.upperDigit_inj (x % 256 / 16) (by omega) (y % 256 / 16) (by omega) e1
    have d2 := hex.upperDigit_inj (x % 16) (by omega) (y % 16) (by omega) e2
    have hxy : x = y := by omega
    have hrest : helper.BuildHex xs = helper.BuildHex ys := by
      have e : ∀ s t : String, s.toList = t.toList → s = t := fun s t hst => String.ext hst
      apply e
      rw [helper.BuildHex_toList, helper.BuildHex_toList]
      exact e3
    rw [hxy, helper.BuildHex_inj xs ys (fun z hz => ha z (List.mem_cons_of_mem _ hz))
      (fun z hz => hb z (List.mem_cons_of_mem _ hz)) hrest]

/-- Only the empty byte string has the empty hex form. -/
theorem helper.BuildHex_eq_empty {bytes : List Nat} (h : helper.BuildHex bytes = "") :
    bytes = [] := by
  cases bytes with
  | nil => rfl
  | cons b bs =>
    have h2 := congrArg String.toList h
    rw [helper.BuildHex_toList] at h2
    simp at h2

/-- A record `ParseTx` returns is the empty record, or carries the hex form of the hash of the
transaction and the status `QueryTxResult` gave. -/
theorem helper.ParseTx_cases {K : constant.Table} {env : helper.Env} {txBytes : itypes.Tx}
    {block : itypes.Block} {tx : document.CommonTx}
    (h : helper.ParseTx K env txBytes block = some tx) :
    tx = {} ∨ (tx.TxHash = helper.BuildHex (env.Hash txBytes) ∧
      tx.Status = (helper.QueryTxResult env (env.Hash txBytes)).1) := by
  cases hdec : env.Unmarshal txBytes with
  | error e =>
    unfold helper.ParseTx at h
    rw [hdec] at h
    simp only [Option.some.injEq] at h
    exact Or.inl h.symm
  | ok authTx =>
    by_cases hm : authTx.Msgs = []
    · unfold helper.ParseTx at h
      rw [hdec] at h
      simp only [hm, Option.some.injEq] at h
      exact Or.inl h.symm
    · have hf := helper.ParseTx_fee_fields hdec hm h
      exact Or.inr ⟨hf.1, hf.2.2.1⟩

/-- The status `QueryTxResult` gives when the query fails. -/
theorem helper.QueryTxResult_error {env : helper.Env} {txHash : List Nat} {e : String}
    (hq : env.query.Tx txHash = .error e) :
    (helper.QueryTxResult env txHash).1 = "unknown" := by
  unfold helper.QueryTxResult
  rw [hq]

/-- Every record of the list `parseTxs` builds was in the list before or is the record
`ParseTx` gives for a transaction of the block, with a status other than `unknown`. -/
theorem cron.parseTxs_mem (K : constant.Table) (env : helper.Env) (block : itypes.Block) :
    ∀ (txs : List itypes.Tx) (acc : List document.CommonTx) (rec : document.CommonTx),
      rec ∈ cron.parseTxs K env block txs acc →
      rec ∈ acc ∨ ∃ t ∈ txs, helper.ParseTx K env t block = some rec ∧
        rec.Status ≠ cron.Unknow_Status
  | [], acc, rec, h => Or.inl h
  | t :: txs, acc, rec, h => by
    unfold cron.parseTxs at h
    cases hp : helper.ParseTx K env t block with
    | none =>
      rw [hp] at h
      exact Or.inl h
    | some tx =>
      rw [hp] at h
      simp only at h
      by_cases hs : tx.Status ≠ cron.Unknow_Status
      · rw [if_pos hs] at h
        rcases cron.parseTxs_mem K env block txs _ rec h with h1 | ⟨t', ht', h2⟩
        · rcases List.mem_append.mp h1 with h3 | h3
          · exact Or.inl h3
          · have e : rec = tx := List.mem_singleton.mp h3
            subst e
            exact Or.inr ⟨t, List.mem_cons_self _ _, hp, hs⟩
        · exact Or.inr ⟨t', List.mem_cons_of_mem _ ht', h2⟩
      · rw [if_neg hs] at h
        rcases cron.parseTxs_mem K env block txs _ rec h with h1 | ⟨t', ht', h2⟩
        · exact Or.inl h1
        · exact Or.inr ⟨t', List.mem_cons_of_mem _ ht', h2⟩

/-- Every record of the list `ParseUnknownTxs` returns is the record `ParseTx` gives for a
transaction of a block, with a status other than `unknown`. -/
theorem cron.ParseUnknownTxs_mem (K : constant.Table) (env : helper.Env) (b : Int)
    (client : helper.Client) (rec : document.CommonTx)
    (h : rec ∈ (cron.ParseUnknownTxs K env b client).1) :
    ∃ block t, helper.ParseTx K env t block = some rec ∧ rec.Status ≠ cron.Unknow_Status := by
  unfold cron.ParseUnknownTxs at h
  cases h1 : client.Block b with
  | ok blk =>
    rw [h1] at h
    rcases cron.parseTxs_mem K env _ _ _ rec h with h2 | ⟨t, -, h3⟩
    · cases h2
    · exact ⟨_, t, h3⟩
  | error err =>
    rw [h1] at h
    simp only at h
    cases h2 : env.retry.Block b with
    | error err2 =>
      rw [h2] at h
      cases h
    | ok blk =>
      rw [h2] at h
      rcases cron.parseTxs_mem K env _ _ _ rec h with h3 | ⟨t, -, h4⟩
      · cases h3
      · exact ⟨_, t, h4⟩

/-- When hashes are byte strings, no record of a list `ParseUnknownTxs` returns carries the hex
form of a hash that is not empty and whose result query fails. -/
theorem cron.ParseUnknownTxs_not_keyed (K : constant.Table) (env : helper.Env)
    (txBytes : itypes.Tx) (e : String)
    (hbytes : ∀ t, ∀ x ∈ env.Hash t, x < 256) (hne : env.Hash txBytes ≠ [])
    (hq : env.query.Tx (env.Hash txBytes) = .error e) (b : Int) (client : helper.Client) :
    ∀ rec ∈ (cron.ParseUnknownTxs K env b client).1,
      rec.TxHash ≠ helper.BuildHex (env.Hash txBytes) := by
  intro rec hrec hkey
  obtain ⟨block, t, hp, hs⟩ := cron.ParseUnknownTxs_mem K env b client rec hrec
  rcases helper.ParseTx_cases hp with h0 | ⟨h1, h2⟩
  · subst h0
    exact hne (helper.BuildHex_eq_empty hkey.symm)
  · have hh : env.Hash t = env.Hash txBytes :=
      helper.BuildHex_inj _ _ (hbytes t) (hbytes txBytes) (h1.symm.trans hkey)
    rw [hh, helper.QueryTxResult_error hq] at h2
    exact hs h2

/-- An update keeps every stored record whose `tx_hash` is not the one of the update. -/
theorem store.updateFirst_keeps {tx : document.CommonTx} {d : cron.CommonTx}
    (hne : d.TxHash ≠ tx.TxHash) :
    ∀ {docs docs' : List cron.CommonTx}, store.updateFirst tx docs = some docs' →
      d ∈ docs → d ∈ docs'
  | [], _, h, _ => by simp [store.updateFirst] at h
  | x :: xs, docs', h, hd => by
    unfold store.updateFirst at h
    by_cases hx : x.TxHash = tx.TxHash
    · rw [if_pos hx] at h
      cases h
      rcases List.mem_cons.mp hd with e | e
      · subst e
        exact absurd hx hne
      · exact List.mem_cons_of_mem _ e
    · rw [if_neg hx] at h
      cases hu : store.updateFirst tx xs with
      | none =>
        rw [hu] at h
        cases h
      | some ys =>
        rw [hu] at h
        cases h
        rcases List.mem_cons.mp hd with e | e
        · subst e
          exact List.mem_cons_self _ _
        · exact List.mem_cons_of_mem _ (store.updateFirst_keeps hne hu e)

/-- The updates of `UpdateUnknowTxs` keep every stored record whose `tx_hash` none of them
carries. -/
theorem cron.UpdateUnknowTxs_keeps (d : cron.CommonTx) :
    ∀ (txs : List document.CommonTx) (c : store.Collection),
      (∀ tx ∈ txs, tx.TxHash ≠ d.TxHash) → d ∈ c.docs → d ∈ (cron.UpdateUnknowTxs c txs).docs
  | [], _, _, hd => hd
  | tx :: txs, c, h, hd => by
    have h1 : d ∈ (store.Update c tx).2.docs := by
      unfold store.Update
      cases c.fault with
      | some err => exact hd
      | none =>
        simp only
        cases hu : store.updateFirst tx c.docs with
        | none => exact hd
        | some docs' =>
          exact store.updateFirst_keeps (fun e => h tx (List.mem_cons_self _ _) e.symm) hu hd
    exact cron.UpdateUnknowTxs_keeps d txs _ (fun t ht => h t (List.mem_cons_of_mem _ ht)) h1

/-- A stored record is a record of the query for status `unknown` exactly when its status is
`unknown`. -/
theorem store.mem_unknownTxs {docs : List cron.CommonTx} {d : cron.CommonTx} :
    d ∈ store.unknownTxs docs ↔ d ∈ docs ∧ d.Status = cron.Unknow_Status := by
  unfold store.unknownTxs
  rw [(List.perm_insertionSort _ _).mem_iff, List.mem_filter]
  simp

/-- C13: every record of a list `ParseUnknownTxs` returns has a status other than `unknown`.
For a transaction whose result query fails, where hashes are byte strings and the hash of the
transaction is not empty: the record `ParseTx` returns is the empty record or has the status
`unknown`, and when the envelope has a message it has the status `unknown` and the loop of
`ParseUnknownTxs` leaves it out; no record of a list `ParseUnknownTxs` returns carries the hash
of the transaction, so `doWork` leaves the stored record with that hash as it is, and when its
status is `unknown` the next query for status `unknown` finds it again.  Whatever `doWork`
processes, every stored record with the status `unknown` afterwards was stored as it is before:
no update writes `unknown`. -/
theorem C13_unresolved_stays_unknown (K : constant.Table) (env : helper.Env)
    (txBytes : itypes.Tx) (e : String)
    (hbytes : ∀ t, ∀ x ∈ env.Hash t, x < 256) (hne : env.Hash txBytes ≠ [])
    (hq : env.query.Tx (env.Hash txBytes) = .error e) :
    (∀ (b : Int) (client : helper.Client),
      ∀ tx ∈ (cron.ParseUnknownTxs K env b client).1, tx.Status ≠ "unknown") ∧
    (∀ (block : itypes.Block) (tx : document.CommonTx),
      helper.ParseTx K env txBytes block = some tx → tx = {} ∨ tx.Status = "unknown") ∧
    (∀ (authTx : itypes.StdTx) (msg : sdk.Msg) (rest : List sdk.Msg) (block : itypes.Block)
      (tx : document.CommonTx),
      env.Unmarshal txBytes = .ok authTx → authTx.Msgs = msg :: rest →
      helper.ParseTx K env txBytes block = some tx →
      tx.Status = "unknown" ∧
      ∀ (txs : List itypes.Tx) (acc : List document.CommonTx),
        cron.parseTxs K env block (txBytes :: txs) acc = cron.parseTxs K env block txs acc) ∧
    (∀ (b : Int) (client : helper.Client),
      ∀ rec ∈ (cron.ParseUnknownTxs K env b client).1,
        rec.TxHash ≠ helper.BuildHex (env.Hash txBytes)) ∧
    (∀ (c : store.Collection) (res : List cron.CommonTx) (d : cron.CommonTx),
      d ∈ c.docs → d.TxHash = helper.BuildHex (env.Hash txBytes) →
      d ∈ (cron.doWork K env c res).docs ∧
      (d.Status = "unknown" → d ∈ store.unknownTxs (cron.doWork K env c res).docs)) ∧
    (∀ (c : store.Collection) (res : List cron.CommonTx),
      ∀ d ∈ (cron.doWork K env c res).docs, d.Status = "unknown" → d ∈ c.docs) := by
  have hkeyed := cron.ParseUnknownTxs_not_keyed K env txBytes e hbytes hne hq
  have hkeep : ∀ (res : List cron.CommonTx) (c : store.Collection) (d : cron.CommonTx),
      d ∈ c.docs → d.TxHash = helper.BuildHex (env.Hash txBytes) →
      d ∈ (cron.doWork K env c res).docs := by
    intro res
    induction res with
    | nil => intro c d hd _; exact hd
    | cons val vals ih =>
      intro c d hd hh
      show d ∈ (cron.doWork K env _ vals).docs
      refine ih _ d ?_ hh
      beta_reduce
      split
      · exact hd
      · rename_i txs hp
        refine cron.UpdateUnknowTxs_keeps d txs c ?_ hd
        intro tx htx
        have := hkeyed val.Height env.work tx (by rw [hp]; exact htx)
        rw [hh]
        exact this
  refine ⟨fun b client tx htx => cron.ParseUnknownTxs_status K env b client tx htx, ?_, ?_,
    hkeyed, ?_, ?_⟩
  · intro block tx hp
    rcases helper.ParseTx_cases hp with h0 | ⟨-, h2⟩
    · exact Or.inl h0
    · rw [helper.QueryTxResult_error hq] at h2
      exact Or.inr h2
  · intro authTx msg rest block tx hdec hmsgs hp
    have hm : authTx.Msgs ≠ [] := by
      rw [hmsgs]
      exact List.cons_ne_nil _ _
    have hs : tx.Status = "unknown" := by
      rw [(helper.ParseTx_fee_fields hdec hm hp).2.2.1, helper.QueryTxResult_error hq]
    refine ⟨hs, ?_⟩
    intro txs acc
    have hn : ¬ tx.Status ≠ cron.Unknow_Status := fun h => h hs
    conv_lhs => unfold cron.parseTxs
    rw [hp]
    simp only [if_neg hn]
  · intro c res d hd hh
    have h1 := hkeep res c d hd hh
    exact ⟨h1, fun hs => store.mem_unknownTxs.mpr ⟨h1, hs⟩⟩
  · intro c res d hd hs
    have h1 : d ∈ store.unknownTxs (cron.doWork K env c res).docs :=
      store.mem_unknownTxs.mpr ⟨hd, hs⟩
    exact (store.mem_unknownTxs.mp ((cron.doWork_unknown K env res c).1.subset h1)).1

/-- C13 at the transaction `[7]`, whose result query fails with `timeout`, stored with the
status `unknown` next to another record: the list of its block is empty, and after `doWork`
on both records the stored record is as it was and the next query for status `unknown` finds
it. -/
theorem C13_unresolved_stays_unknown_witness :
    demo.pendingBytes.query.Tx (demo.pendingBytes.Hash [7]) = .error "timeout" ∧
    demo.pendingDoc.TxHash = helper.BuildHex (demo.pendingBytes.Hash [7]) ∧
    demo.pendingDoc.Status = "unknown" ∧
    cron.ParseUnknownTxs demo.K demo.pendingBytes 7 demo.pendingBytes.work = ([], none) ∧
    demo.pendingDoc ∈ store.unknownTxs (cron.doWork demo.K demo.pendingBytes
      { docs := [demo.pendingDoc, demo.otherDoc] } [demo.pendingDoc, demo.otherDoc]).docs := by
  have h := C13_unresolved_stays_unknown demo.K demo.pendingBytes [7] "timeout"
    (by
      intro t x hx
      obtain ⟨y, -, rfl⟩ := List.mem_map.mp hx
      exact Nat.mod_lt _ (by decide))
    (by decide) rfl
  refine ⟨rfl, by decide, rfl, by decide, ?_⟩
  exact (h.2.2.2.2.1 { docs := [demo.pendingDoc, demo.otherDoc] }
    [demo.pendingDoc, demo.otherDoc] demo.pendingDoc (by simp) (by decide)).2 rfl
